import Mathlib

/-!
# up-sdk-go: the request/response pipeline of `client.go`

A shallow embedding of `DefaultErrorHandler.Handle`, `HTTPClient.Do`,
`HTTPClient.With`, `HTTPClient.NewRequest` and `ContextTransport.RoundTrip`,
and of the deep copies of `apis/common/json.go` and
`apis/spaces/v1beta1/zz_generated.deepcopy.go`.

Conventions of the embedding.

* Go `string` and `[]byte` values are both Lean `String`s, so the conversion
  `string(b)` of the source is the identity.
* Go `int` is `Int`.
* A Go `error` is `Option GoError`; `none` is `nil`.
* A pointer that may be `nil` (`*string`) is an `Option`.
* Library calls whose code is not part of the repository (`json.Unmarshal`,
  `http.Client.Do`, `path.Join`, URL parsing, the JSON encoder) are parameters
  of the functions that call them, so every theorem holds for whatever these
  calls return.
* For `With`, the client structs and the URLs and HTTP clients they point to
  lie in a memory, by address, so that what a call leaves unchanged can be
  stated; a modifier is any change of that memory, given the pointer.
-/

namespace Up

/-! ## Data model -/

/-- Modelled from the spec: the type `uerrors.Error` of package `errors`, which
`client.go` imports but which is declared elsewhere. It is the response error
of the data model: a status code, a title, and an optional detail. -/
structure Error where
  Status : Int
  Title : String
  Detail : Option String
  deriving DecidableEq, Repr

/-- The zero value of `uerrors.Error`, the content of `var rErr uerrors.Error`. -/
def Error.zero : Error := { Status := 0, Title := "", Detail := none }

/-- Values of the Go interface `error` that flow through `client.go`. -/
inductive GoError where
  /-- A `*uerrors.Error`, as returned by `DefaultErrorHandler.Handle`. -/
  | api (e : Error)
  /-- The value of `errors.Wrap(cause, msg)` for a non-nil `cause`. -/
  | wrapped (cause : GoError) (msg : String)
  /-- Any other error value: I/O, JSON decoding, URL parsing, transport. -/
  | other (msg : String)
  deriving DecidableEq, Repr

/-- The body of a response, an `io.ReadCloser` seen through `io.ReadAll`:
`data` is what the reader still delivers, and `fail` is the error that ends
the stream (`none` when it ends in `io.EOF`). -/
structure Body where
  data : String
  fail : Option GoError
  deriving DecidableEq, Repr

/-- `io.ReadAll(body)`: everything the reader delivers together with the error
that stopped it, and the reader left drained. -/
def ReadAll (b : Body) : (String × Option GoError) × Body :=
  ((b.data, b.fail), { data := "", fail := b.fail })

/-- The part of `http.Response` that `client.go` looks at. -/
structure Response where
  StatusCode : Int
  Body : Body
  deriving DecidableEq, Repr

/-- The request-scoped context, reduced to the one value `client.go` reads
from it: the correlation identifier, when one is attached. -/
structure Context where
  requestID : Option String
  deriving DecidableEq, Repr

/-- The part of `http.Request` that `client.go` sets or reads. -/
structure Request where
  Method : String
  URL : String
  Header : List (String × List String)
  Body : Option String
  ctx : Context
  deriving DecidableEq, Repr

/-- Modelled from the spec: `request.IDFromContext` of package `http/request`,
the pure accessor of the correlation identifier carried by a context. It is
the identifier when one is present and the empty string otherwise. -/
def IDFromContext (ctx : Context) : String :=
  match ctx.requestID with
  | some id => id
  | none => ""

/-- The cases of the `switch` of `http.StatusText` in Go's `net/http`: each
status code the function names, with its reason phrase. -/
def statusTexts : List (Int × String) :=
  [
    (100, "Continue"), (101, "Switching Protocols"),
    (102, "Processing"), (103, "Early Hints"),
    (200, "OK"), (201, "Created"),
    (202, "Accepted"), (203, "Non-Authoritative Information"),
    (204, "No Content"), (205, "Reset Content"),
    (206, "Partial Content"), (207, "Multi-Status"),
    (208, "Already Reported"), (226, "IM Used"),
    (300, "Multiple Choices"), (301, "Moved Permanently"),
    (302, "Found"), (303, "See Other"),
    (304, "Not Modified"), (305, "Use Proxy"),
    (307, "Temporary Redirect"), (308, "Permanent Redirect"),
    (400, "Bad Request"), (401, "Unauthorized"),
    (402, "Payment Required"), (403, "Forbidden"),
    (404, "Not Found"), (405, "Method Not Allowed"),
    (406, "Not Acceptable"), (407, "Proxy Authentication Required"),
    (408, "Request Timeout"), (409, "Conflict"),
    (410, "Gone"), (411, "Length Required"),
    (412, "Precondition Failed"), (413, "Request Entity Too Large"),
    (414, "Request URI Too Long"), (415, "Unsupported Media Type"),
    (416, "Requested Range Not Satisfiable"), (417, "Expectation Failed"),
    (418, "I\x27m a teapot"), (421, "Misdirected Request"),
    (422, "Unprocessable Entity"), (423, "Locked"),
    (424, "Failed Dependency"), (425, "Too Early"),
    (426, "Upgrade Required"), (428, "Precondition Required"),
    (429, "Too Many Requests"), (431, "Request Header Fields Too Large"),
    (451, "Unavailable For Legal Reasons"), (500, "Internal Server Error"),
    (501, "Not Implemented"), (502, "Bad Gateway"),
    (503, "Service Unavailable"), (504, "Gateway Timeout"),
    (505, "HTTP Version Not Supported"), (506, "Variant Also Negotiates"),
    (507, "Insufficient Storage"), (508, "Loop Detected"),
    (510, "Not Extended"), (511, "Network Authentication Required")
  ]

/-- `http.StatusText` of Go's `net/http`: the reason phrase of a status code,
and the empty string for a code the function does not name. -/
def StatusText (code : Int) : String :=
  match statusTexts.lookup code with
  | some text => text
  | none => ""

/-- The status codes for which `StatusText` has a reason phrase. -/
def knownStatusCodes : List Int := statusTexts.map Prod.fst

/-- The signature of `json.Unmarshal(b, &v)` for a target of type `α`: from
the bytes and the target as it stands, the target as the call leaves it (it
may be partly filled even when the call fails) and the error. -/
abbrev Unmarshal (α : Type) := String → α → α × Option GoError

/-! ## The error classifier -/

/-- `DefaultErrorHandler.Handle`, with the `*uerrors.Error` it returns kept as
an `Error` (`none` is the `nil` error), and the body as the call leaves it. -/
def DefaultErrorHandler.Handle (unmarshal : Unmarshal Error) (res : Response) :
    Option Error × Body :=
  let status := res.StatusCode
  if status ≥ 200 ∧ status < 300 then
    (none, res.Body)
  else
    let rd := ReadAll res.Body
    let b := rd.1.1
    let err := rd.1.2
    let body := rd.2
    if err = none then
      let um := unmarshal b Error.zero
      let rErr := um.1
      if um.2 = none ∧ rErr.Status ≠ 0 then
        (some rErr, body)
      else
        let bd := b
        let details := if bd ≠ "" then some bd else none
        (some { Status := status, Title := StatusText status, Detail := details }, body)
    else
      (some { Status := status, Title := StatusText status, Detail := none }, body)

/-- The condition under which `Handle` returns the decoded envelope `&rErr`:
the body is read without error (`err == nil`) and `json.Unmarshal` succeeds
and leaves a non-zero status in `rErr`. -/
def returnsEnvelope (unmarshal : Unmarshal Error) (res : Response) : Prop :=
  res.Body.fail = none ∧ (unmarshal res.Body.data Error.zero).2 = none ∧
    (unmarshal res.Body.data Error.zero).1.Status ≠ 0

/-! ## The request client -/

/-- The interface `ResponseErrorHandler`: `Handle(res) error`, together with
the body as the handler leaves it. -/
abbrev ResponseErrorHandler := Response → Option GoError × Body

/-- A `*DefaultErrorHandler` seen through the interface `ResponseErrorHandler`. -/
def DefaultErrorHandler.asHandler (unmarshal : Unmarshal Error) : ResponseErrorHandler :=
  fun res =>
    let r := DefaultErrorHandler.Handle unmarshal res
    (r.1.map GoError.api, r.2)

/-- The struct `HTTPClient`. `HTTP` is the call `c.HTTP.Do(req)` of the
underlying `*http.Client`: a response, or the error of the round trip. -/
structure HTTPClient where
  BaseURL : String
  ErrorHandler : ResponseErrorHandler
  HTTP : Request → Except GoError Response
  UserAgent : String

/-- `HTTPClient.handleErrors`. -/
def HTTPClient.handleErrors (c : HTTPClient) (res : Response) : Option GoError × Body :=
  c.ErrorHandler res

/-- What `Do` does besides returning, in the order it does it. -/
inductive Event where
  /-- The error handler was invoked on the response. -/
  | handle
  /-- `io.ReadAll(res.Body)` was called by `Do`. -/
  | readAll
  /-- `json.Unmarshal(b, &obj)` was called by `Do`. -/
  | unmarshal
  /-- The deferred `res.Body.Close()` ran. -/
  | close
  deriving DecidableEq, Repr

/-- The outcome of `Do`: the returned error, the result container as it is
when `Do` returns, and the trace of what `Do` did. -/
structure DoResult (σ : Type) where
  err : Option GoError
  obj : Option σ
  trace : List Event

/-- `HTTPClient.Do`. The container `obj` is `none` for a nil `interface{}`;
`unmarshal` is `json.Unmarshal` at the container's type. -/
def HTTPClient.Do {σ : Type} (unmarshal : Unmarshal σ) (c : HTTPClient)
    (req : Request) (obj : Option σ) : DoResult σ :=
  match c.HTTP req with
  | .error err =>
    { err := some (GoError.wrapped err
        ("failed to perform request with ID: " ++ IDFromContext req.ctx)),
      obj := obj, trace := [] }
  | .ok res =>
    let h := c.handleErrors res
    match h.1 with
    | some err => { err := some err, obj := obj, trace := [Event.handle, Event.close] }
    | none =>
      match obj with
      | some o =>
        let rd := ReadAll h.2
        match rd.1.2 with
        | some err =>
          { err := some err, obj := obj,
            trace := [Event.handle, Event.readAll, Event.close] }
        | none =>
          let um := unmarshal rd.1.1 o
          { err := um.2, obj := some um.1,
            trace := [Event.handle, Event.readAll, Event.unmarshal, Event.close] }
      | none => { err := none, obj := obj, trace := [Event.handle, Event.close] }

/-! ## Derived clients: `HTTPClient.With`

The struct `HTTPClient` of the source holds two pointers, `BaseURL *url.URL`
and `HTTP *http.Client`, and a modifier is a `func(*HTTPClient)`: it may assign
the fields of the struct it is given, and it may as well write through the
pointers it finds there. Here the structs, the URLs and the HTTP clients
therefore lie in a memory, by address, and a modifier is any change of that
memory. The structure `HTTPClient` above is what a struct amounts to once its
pointers are followed. -/

/-- A Go pointer: `none` is nil. -/
abbrev Ptr := Option Nat

/-- The struct `HTTPClient` as it lies in memory: `BaseURL` is a `*url.URL` and
`HTTP` a `*http.Client`. -/
structure HTTPClientStruct where
  BaseURL : Ptr
  ErrorHandler : ResponseErrorHandler
  HTTP : Ptr
  UserAgent : String

/-- The memory: the `url.URL` values (as text), the `http.Client` values (as
what their `Do` answers) and the `HTTPClient` structs, each by address. The
structs allocated so far are those below `nextClient`. -/
structure Memory where
  urls : Nat → String
  httpClients : Nat → (Request → Except GoError Response)
  clients : Nat → HTTPClientStruct
  nextClient : Nat

/-- A `ClientModifierFn`, of Go type `func(*HTTPClient)`: given the pointer, the
memory as the call leaves it. -/
abbrev ClientModifierFn := Nat → Memory → Memory

/-- The assignment `*p = v` for a `*HTTPClient`. -/
def Memory.writeClient (mem : Memory) (p : Nat) (v : HTTPClientStruct) : Memory :=
  { mem with clients := fun q => if q = p then v else mem.clients q }

/-- The assignment `*a = u` for a `*url.URL`. -/
def Memory.writeURL (mem : Memory) (a : Nat) (u : String) : Memory :=
  { mem with urls := fun q => if q = a then u else mem.urls q }

/-- `HTTPClient.With` called on the receiver at address `c`: the memory when
the call returns, and the pointer it returns. There is no result for a receiver
that points to no allocated struct. -/
def HTTPClient.With (mem : Memory) (c : Nat) (modifiers : List ClientModifierFn) :
    Option (Memory × Nat) :=
  if c < mem.nextClient then
    let cv := mem.clients c
    let nc := mem.nextClient
    let mem1 : Memory :=
      { Memory.writeClient mem nc
          { BaseURL := cv.BaseURL, ErrorHandler := cv.ErrorHandler,
            HTTP := cv.HTTP, UserAgent := cv.UserAgent } with
        nextClient := nc + 1 }
    some (modifiers.foldl (fun m f => f nc m) mem1, nc)
  else none

/-- The memory once `With` has allocated the new struct and filled it with the
four fields of the receiver at `c`, before any modifier is called. -/
def Memory.withCopyOf (mem : Memory) (c : Nat) : Memory :=
  { Memory.writeClient mem mem.nextClient
      { BaseURL := (mem.clients c).BaseURL, ErrorHandler := (mem.clients c).ErrorHandler,
        HTTP := (mem.clients c).HTTP, UserAgent := (mem.clients c).UserAgent } with
    nextClient := mem.nextClient + 1 }

/-- The client at address `p` with its pointers followed: its base address,
classifier, HTTP client and user-agent. There is none when `BaseURL` or `HTTP`
is nil. -/
def Memory.client (mem : Memory) (p : Nat) : Option HTTPClient :=
  match (mem.clients p).BaseURL, (mem.clients p).HTTP with
  | some u, some t =>
    some { BaseURL := mem.urls u, ErrorHandler := (mem.clients p).ErrorHandler,
           HTTP := mem.httpClients t, UserAgent := (mem.clients p).UserAgent }
  | _, _ => none

/-- A modifier that writes nothing but the struct it is given: it leaves every
URL, every HTTP client and every other struct as it is. -/
def writesOnlyItsStruct (m : ClientModifierFn) : Prop :=
  ∀ p mem, (m p mem).urls = mem.urls ∧ (m p mem).httpClients = mem.httpClients ∧
    ∀ q, q ≠ p → (m p mem).clients q = mem.clients q

/-- The modifier `func(n *HTTPClient) { *n = f(*n) }`, which assigns fields of
the struct it is given and does nothing else. -/
def assignFields (f : HTTPClientStruct → HTTPClientStruct) : ClientModifierFn :=
  fun p mem => Memory.writeClient mem p (f (mem.clients p))

/-! ## Building requests: `HTTPClient.NewRequest` -/

/-- The type `http.Header`, a map from header names to their values. -/
abbrev Header := List (String × List String)

/-- `Header.Set(key, value)` for a key in canonical form, as `User-Agent` and
`Content-Type` are: the values of `key` become the single `value`. -/
def Header.Set (h : Header) (key value : String) : Header :=
  (key, [value]) :: h.filter (fun kv => kv.1 ≠ key)

/-- `Header.Values(key)` for a key in canonical form: the values of `key`,
none when the header is not set. -/
def Header.Values (h : Header) (key : String) : List String :=
  match h.lookup key with
  | some vs => vs
  | none => []

/-- `Header.Get(key)` for a key in canonical form: the first value of `key`,
the empty string when there is none. -/
def Header.Get (h : Header) (key : String) : String :=
  match Header.Values h key with
  | v :: _ => v
  | [] => ""

/-- Whether the header `key` is set at all: `_, ok := h[key]`. -/
def Header.Has (h : Header) (key : String) : Bool :=
  (h.lookup key).isSome

/-- `httpguts.IsTokenRune`: the characters an HTTP method may consist of. -/
def isTokenRune (r : Char) : Bool :=
  r.isAlphanum || "!#$%&\x27*+-.^_\x60|~".toList.contains r

/-- `validMethod` of `net/http`: a non-empty string of token characters. -/
def validMethod (method : String) : Bool :=
  method.length > 0 && method.toList.all isTokenRune

/-- The library functions that `NewRequest` calls, for request bodies of type
`β`. A URL is carried as its text, the result of `URL.String()`. -/
structure Lib (β : Type) where
  /-- `path.Join(a, b)`. -/
  pathJoin : String → String → String
  /-- `base.Parse(ref)` followed by `String()`: the reference `ref` parsed and
  resolved against the URL `base`, or the parse error. -/
  urlResolve : String → String → Except GoError String
  /-- `url.Parse(s)` as `http.NewRequestWithContext` calls it: the URL of the
  request, or the parse error. -/
  urlParse : String → Except GoError String
  /-- `enc.Encode(v)` for a `json.Encoder` whose HTML escaping is set by the
  first argument: the bytes written to the buffer, or the error. -/
  encode : Bool → β → Except GoError String

/-- `http.NewRequestWithContext` of `net/http`. The context is `none` for a
nil `context.Context`, the body `none` for a nil `io.Reader`. -/
def NewRequestWithContext (urlParse : String → Except GoError String)
    (ctx : Option Context) (method url : String) (body : Option String) :
    Except GoError Request :=
  let method := if method = "" then "GET" else method
  if ¬ validMethod method then
    Except.error (GoError.other ("net/http: invalid method " ++ method.quote))
  else
    match ctx with
    | none => Except.error (GoError.other "net/http: nil Context")
    | some ctx =>
      match urlParse url with
      | Except.error err => Except.error err
      | Except.ok u =>
        Except.ok { Method := method, URL := u, Header := [], Body := body, ctx := ctx }

/-- `HTTPClient.NewRequest`: the pair `(*http.Request, error)` it returns. The
body argument is `none` for a nil `interface{}`. -/
def HTTPClient.NewRequest {β : Type} (L : Lib β) (c : HTTPClient) (ctx : Option Context)
    (method pfx urlPath : String) (body : Option β) : Option Request × Option GoError :=
  match L.urlResolve c.BaseURL (L.pathJoin pfx urlPath) with
  | Except.error err => (none, some err)
  | Except.ok u =>
    let encoded : Except GoError (Option String) :=
      match body with
      | some b =>
        match L.encode false b with
        | Except.error err => Except.error err
        | Except.ok bytes => Except.ok (some bytes)
      | none => Except.ok none
    match encoded with
    | Except.error err => (none, some err)
    | Except.ok buf =>
      match NewRequestWithContext L.urlParse ctx method u buf with
      | Except.error err => (none, some err)
      | Except.ok req =>
        let req1 := { req with Header := Header.Set req.Header "User-Agent" c.UserAgent }
        let req2 :=
          if body.isSome then
            { req1 with Header := Header.Set req1.Header "Content-Type" "application/json" }
          else req1
        (some req2, none)

/-! ## Example decoders

The theorems below hold for every decoder. Where a statement needs a concrete
one (to run the code on an example of the specification), these tables are
used: they give the answer of `json.Unmarshal` on the listed bodies, and treat
every body they do not list as a syntax error. They are only ever applied to
listed bodies, to the empty body and to text that is not JSON. -/

/-- The envelope of the specification's example,
`{"status":404,"title":"Not Found","detail":"x"}`. -/
def envelopeBody : String :=
  "\x7b\"status\":404,\"title\":\"Not Found\",\"detail\":\"x\"\x7d"

/-- An envelope without a title, `{"status":404}`. -/
def bareEnvelopeBody : String := "\x7b\"status\":404\x7d"

/-- The answers of `json.Unmarshal(b, &rErr)` on `envelopeBody`, on
`bareEnvelopeBody`, on the empty body, and on text that is not JSON. -/
def exampleUnmarshalError : Unmarshal Error := fun b v =>
  if b = envelopeBody then
    ({ v with Status := 404, Title := "Not Found", Detail := some "x" }, none)
  else if b = bareEnvelopeBody then
    ({ v with Status := 404 }, none)
  else if b = "" then
    (v, some (GoError.other "unexpected end of JSON input"))
  else
    (v, some (GoError.other "invalid character looking for beginning of value"))

/-- The answers of `json.Unmarshal(b, &obj)` for a container holding a `*int`,
on the bodies `7` and `42`, on the empty body, and on text that is not JSON. -/
def exampleUnmarshalInt : Unmarshal Int := fun b v =>
  if b = "7" then (7, none)
  else if b = "42" then (42, none)
  else if b = "" then (v, some (GoError.other "unexpected end of JSON input"))
  else (v, some (GoError.other "invalid character looking for beginning of value"))

/-- A `GET` request whose context carries the correlation identifier `req-1`. -/
def exampleRequest : Request :=
  { Method := "GET", URL := "https://api.upbound.io/v1/accounts", Header := [],
    Body := none, ctx := { requestID := some "req-1" } }

/-- A client with the default error classifier whose round trips all complete
with the response `res`. -/
def exampleClient (res : Response) : HTTPClient :=
  { BaseURL := "https://api.upbound.io",
    ErrorHandler := DefaultErrorHandler.asHandler exampleUnmarshalError,
    HTTP := fun _ => Except.ok res,
    UserAgent := "up-sdk-go" }

/-- A client with the default error classifier whose round trips all fail with
the error `e`. -/
def exampleFailingClient (e : GoError) : HTTPClient :=
  { BaseURL := "https://api.upbound.io",
    ErrorHandler := DefaultErrorHandler.asHandler exampleUnmarshalError,
    HTTP := fun _ => Except.error e,
    UserAgent := "up-sdk-go" }

/-! ## Example modifiers and library functions -/

/-- The modifier `func(n *HTTPClient) { n.BaseURL = u }`, for a pointer `u`. -/
def withBaseURL (u : Ptr) : ClientModifierFn :=
  assignFields (fun c => { c with BaseURL := u })

/-- The modifier `func(n *HTTPClient) { n.UserAgent = ua }`. -/
def withUserAgent (ua : String) : ClientModifierFn :=
  assignFields (fun c => { c with UserAgent := ua })

/-- The modifier `func(n *HTTPClient) { *n.BaseURL = u }`, which writes the URL
`u` through the pointer that the struct holds. -/
def writeThroughBaseURL (u : String) : ClientModifierFn :=
  fun p mem =>
    match (mem.clients p).BaseURL with
    | some a => Memory.writeURL mem a u
    | none => mem

/-- A memory with the URL `https://api.upbound.io` at address 0 and the URL
`https://proxy.example` at address 1, an HTTP client whose round trips fail
with `connection refused`, and one allocated struct, at address 0, with the
settings of `NewClient`. -/
def exampleMemory : Memory :=
  { urls := fun a =>
      if a = 0 then "https://api.upbound.io"
      else if a = 1 then "https://proxy.example" else "",
    httpClients := fun _ => fun _ => Except.error (GoError.other "connection refused"),
    clients := fun _ =>
      { BaseURL := some 0,
        ErrorHandler := DefaultErrorHandler.asHandler exampleUnmarshalError,
        HTTP := some 0, UserAgent := "up-sdk-go" },
    nextClient := 1 }

/-- The answers of `path.Join(a, b)` on operands that are clean paths (no
dot segment, no doubled or trailing slash), the second one relative. -/
def examplePathJoin (a b : String) : String :=
  if a = "" then b else if b = "" then a else a ++ "/" ++ b

/-- The answers of `base.Parse(ref)`, as text, for a base made of a scheme and
a host: on the reference `/v1/%zz`, whose escape is malformed, and on a
reference that is an absolute path of letters, digits and slashes. -/
def exampleResolve (base ref : String) : Except GoError String :=
  if ref = "/v1/%zz" then
    Except.error (GoError.other "parse \"/v1/%zz\": invalid URL escape \"%zz\"")
  else
    Except.ok (base ++ ref)

/-- The answer of `url.Parse(s)`, as text, on the text of a URL made of a
scheme, a host and a path of letters, digits and slashes. -/
def exampleURLParse (s : String) : Except GoError String :=
  Except.ok s

/-- The library functions of the examples, around a given JSON encoder. -/
def exampleLib {β : Type} (encode : Bool → β → Except GoError String) : Lib β :=
  { pathJoin := examplePathJoin, urlResolve := exampleResolve,
    urlParse := exampleURLParse, encode := encode }

/-- A client with the default settings of `NewClient`: base address
`https://api.upbound.io`, user-agent `up-sdk-go`. -/
def exampleBaseClient : HTTPClient :=
  exampleClient { StatusCode := 204, Body := { data := "", fail := none } }

/-- A context that carries the correlation identifier `req-1`. -/
def exampleContext : Context := { requestID := some "req-1" }

/-! ## Request bodies of the examples

Two types of the repository serve as request bodies, next to plain Go strings:
`common.JSON`, which has its own `MarshalJSON`, and `v1alpha1.Pipeline`, whose
fields are slices tagged `omitempty`. The encoders below are what
`encoding/json` writes for them when the strings consist of printable ASCII
characters. -/

/-- The struct `JSON` of `apis/common/json.go`; `V` is the type of the Go values
that its field `Object` holds. -/
structure JSON (V : Type) where
  Object : V

/-- `JSON.MarshalJSON`: `json.Marshal(j.Object)`, for the given `json.Marshal`. -/
def JSON.MarshalJSON {V : Type} (jsonMarshal : V → Except GoError String) (j : JSON V) :
    Except GoError String :=
  jsonMarshal j.Object

/-- The struct `Pipeline` of `apis/observability/v1alpha1/telemetry_types.go`.
A `[]string` is `none` when it is the nil slice. -/
structure Pipeline where
  Metrics : Option (List String)
  Traces : Option (List String)
  Logs : Option (List String)
  deriving DecidableEq, Repr

/-- What `encoding/json` writes for one printable ASCII character of a string:
the quote and the backslash are escaped, the characters `<`, `>` and `&` are
written as `\u003c`, `\u003e` and `\u0026` when HTML escaping is on, and
every other character is copied. -/
def marshalRune (escapeHTML : Bool) (r : Char) : String :=
  if r = '"' then "\\\""
  else if r = '\\' then "\\\\"
  else if escapeHTML && r = '<' then "\\u003c"
  else if escapeHTML && r = '>' then "\\u003e"
  else if escapeHTML && r = '&' then "\\u0026"
  else String.singleton r

/-- What `encoding/json` writes for a Go string of printable ASCII. -/
def marshalString (escapeHTML : Bool) (s : String) : String :=
  "\"" ++ String.join (s.toList.map (marshalRune escapeHTML)) ++ "\""

/-- `json.Marshal(s)` for a Go string: HTML escaping is on. -/
def jsonMarshalString (s : String) : Except GoError String :=
  Except.ok (marshalString true s)

/-- `enc.Encode(s)` for a Go string: its encoding, then a newline. -/
def encodeString (escapeHTML : Bool) (s : String) : Except GoError String :=
  Except.ok (marshalString escapeHTML s ++ "\n")

/-- `enc.Encode(j)` for a `common.JSON` whose `Object` is a Go string: the
encoder calls `j.MarshalJSON()` and copies the bytes returned, which are
compact JSON without a literal `<`, `>` or `&`, so that the setting of the
encoder changes nothing in them; then a newline. -/
def encodeJSON (_escapeHTML : Bool) (j : JSON String) : Except GoError String :=
  match JSON.MarshalJSON jsonMarshalString j with
  | Except.error err => Except.error err
  | Except.ok bytes => Except.ok (bytes ++ "\n")

/-- What `encoding/json` writes for a `[]string` that is not empty. -/
def marshalStrings (escapeHTML : Bool) (xs : List String) : String :=
  "[" ++ ",".intercalate (xs.map (marshalString escapeHTML)) ++ "]"

/-- What `encoding/json` writes for a `[]string` field tagged `omitempty`:
nothing when the slice is nil or empty, and otherwise the name and the list. -/
def marshalField (escapeHTML : Bool) (name : String) (v : Option (List String)) :
    List String :=
  match v with
  | none => []
  | some [] => []
  | some (x :: xs) => ["\"" ++ name ++ "\":" ++ marshalStrings escapeHTML (x :: xs)]

/-- `enc.Encode(p)` for a `Pipeline`: the object of its non-empty fields, then
a newline. -/
def encodePipeline (escapeHTML : Bool) (p : Pipeline) : Except GoError String :=
  Except.ok ("\x7b" ++ ",".intercalate
    (marshalField escapeHTML "metrics" p.Metrics ++
      marshalField escapeHTML "traces" p.Traces ++
      marshalField escapeHTML "logs" p.Logs) ++ "\x7d\n")

/-- The answers of `json.Unmarshal(bytes, &p)` for a zero `Pipeline`, on the
documents `{}` and `{"metrics":["cpu"]}`, each followed by a newline; `none`
stands for every other input, on which it is not used. -/
def exampleDecodePipeline (bytes : String) : Option Pipeline :=
  if bytes = "\x7b\x7d\n" then
    some { Metrics := none, Traces := none, Logs := none }
  else if bytes = "\x7b\"metrics\":[\"cpu\"]\x7d\n" then
    some { Metrics := some ["cpu"], Traces := none, Logs := none }
  else none

/-- The answer of `json.Unmarshal(bytes, &s)` for a Go string, on the
document `"<a&b>"` followed by a newline; `none` stands for every other input,
on which it is not used. -/
def exampleDecodeString (bytes : String) : Option String :=
  if bytes = "\"<a&b>\"\n" then some "<a&b>" else none

/-! ## The transport decorator: `ContextTransport` -/

/-- `Header.Add(key, value)` for a key in canonical form: `value` is appended
to the values that `key` already has. -/
def Header.Add (h : Header) (key value : String) : Header :=
  (key, Header.Values h key ++ [value]) :: h.filter (fun kv => kv.1 ≠ key)

/-- The interface `http.RoundTripper`: `RoundTrip(req)` returns a response and
an error. -/
abbrev RoundTripper := Request → Option Response × Option GoError

/-- The struct `ContextTransport`. -/
structure ContextTransport where
  transport : RoundTripper

/-- The outcome of `ContextTransport.RoundTrip`: the response and the error it
returns, the requests it handed to the delegate transport, in order, and the
caller's request as the call leaves it (its header map is written in place). -/
structure RoundTripResult where
  res : Option Response
  err : Option GoError
  sent : List Request
  req : Request

/-- `ContextTransport.RoundTrip`. Two parts of the repository that are not
among the sources are parameters: `requestIDHeader` is the name
`headers.RequestIDHeader` in the canonical form under which `Header.Add`
stores it, and `newID` is what `request.NewID()` returns when it is called. -/
def ContextTransport.RoundTrip (requestIDHeader newID : String) (c : ContextTransport)
    (req : Request) : RoundTripResult :=
  let id := IDFromContext req.ctx
  let id := if id = "" then newID else id
  let req1 := { req with Header := Header.Add req.Header requestIDHeader id }
  let r := c.transport req1
  { res := r.1, err := r.2, sent := [req1], req := req1 }

/-- The identifier that `RoundTrip` adds to the request: the one of the
context when it is not empty, and the newly generated one otherwise. -/
def roundTripID (newID : String) (req : Request) : String :=
  if IDFromContext req.ctx = "" then newID else IDFromContext req.ctx

/-- The request `req` once `id` is added to its correlation-identifier
header. -/
def Request.addRequestID (req : Request) (requestIDHeader id : String) : Request :=
  { req with Header := Header.Add req.Header requestIDHeader id }

/-- The call `c.HTTP.Do(req)` of an `*http.Client` whose `Transport` is the
given `ContextTransport` and that follows no redirect: the response of the
round trip, or its error (which `net/http` hands on inside a `*url.Error`; the
embedding hands on the error itself). -/
def httpClientDo (requestIDHeader newID : String) (t : ContextTransport) :
    Request → Except GoError Response :=
  fun req =>
    let r := ContextTransport.RoundTrip requestIDHeader newID t req
    match r.err, r.res with
    | some err, _ => Except.error err
    | none, some res => Except.ok res
    | none, none => Except.error (GoError.other "http: RoundTripper returned a nil response")

/-- A delegate transport that fails every round trip with the error `e`. -/
def exampleFailingTransport (e : GoError) : ContextTransport :=
  { transport := fun _ => (none, some e) }

/-- A delegate transport that answers every round trip with the response `res`. -/
def exampleTransport (res : Response) : ContextTransport :=
  { transport := fun _ => (some res, none) }

/-- A `GET` request whose context carries no correlation identifier. -/
def exampleRequestWithoutID : Request :=
  { Method := "GET", URL := "https://api.upbound.io/v1/accounts", Header := [],
    Body := none, ctx := { requestID := none } }

/-- A `GET` request that already has the value `abc` in the header
`X-Request-Id`, and whose context carries the identifier `req-1`. -/
def exampleRequestWithHeader : Request :=
  { Method := "GET", URL := "https://api.upbound.io/v1/accounts",
    Header := [("X-Request-Id", ["abc"])], Body := none,
    ctx := { requestID := some "req-1" } }

/-- A client with the default settings whose HTTP client sends through the
transport decorator `t`, with `X-Request-Id` as the header name and
`generated-1` as the identifier that is generated when one is needed. -/
def exampleDecoratedClient (t : ContextTransport) : HTTPClient :=
  { BaseURL := "https://api.upbound.io",
    ErrorHandler := DefaultErrorHandler.asHandler exampleUnmarshalError,
    HTTP := httpClientDo "X-Request-Id" "generated-1" t,
    UserAgent := "up-sdk-go" }

/-! ## Deep copies of `common.JSON` and `common.JSONObject`

A value is represented by its content, a pointer to a struct by `none` (nil) or
the struct it points to; a call that panics has no result. -/

mutual
/-- What an `interface{}` may hold. -/
inductive JSONValue where
  /-- The nil interface. -/
  | null
  /-- A `bool`. -/
  | bool (b : Bool)
  /-- An `int64`. -/
  | int64 (n : Int)
  /-- A `float64`, by its bits. -/
  | float64 (bits : Nat)
  /-- A `json.Number`. -/
  | number (text : String)
  /-- A `string`. -/
  | string (s : String)
  /-- The nil `[]interface{}`. -/
  | nilArray
  /-- A non-nil `[]interface{}`. -/
  | array (items : JSONValues)
  /-- The nil `map[string]interface{}`. -/
  | nilObject
  /-- A non-nil `map[string]interface{}`, by its entries. -/
  | object (fields : JSONFields)
  /-- A value of any other dynamic type, such as `int`, named by its type. -/
  | other (typeName : String)
/-- The elements of a `[]interface{}`. -/
inductive JSONValues where
  | nil
  | cons (head : JSONValue) (tail : JSONValues)
/-- The entries of a `map[string]interface{}`. -/
inductive JSONFields where
  | nil
  | cons (key : String) (value : JSONValue) (tail : JSONFields)
end

mutual
/-- `runtime.DeepCopyJSONValue` of `k8s.io/apimachinery`: maps and slices are
cloned entry by entry, a nil map or slice and the scalar types are returned as
they are, and any other type makes it panic (`none`). -/
def DeepCopyJSONValue : JSONValue → Option JSONValue
  | JSONValue.null => some JSONValue.null
  | JSONValue.bool b => some (JSONValue.bool b)
  | JSONValue.int64 n => some (JSONValue.int64 n)
  | JSONValue.float64 bits => some (JSONValue.float64 bits)
  | JSONValue.number text => some (JSONValue.number text)
  | JSONValue.string s => some (JSONValue.string s)
  | JSONValue.nilArray => some JSONValue.nilArray
  | JSONValue.array items =>
    match deepCopyItems items with
    | some clone => some (JSONValue.array clone)
    | none => none
  | JSONValue.nilObject => some JSONValue.nilObject
  | JSONValue.object fields =>
    match deepCopyFields fields with
    | some clone => some (JSONValue.object clone)
    | none => none
  | JSONValue.other _ => none
/-- The loop `for i, v := range x { clone[i] = DeepCopyJSONValue(v) }`. -/
def deepCopyItems : JSONValues → Option JSONValues
  | JSONValues.nil => some JSONValues.nil
  | JSONValues.cons head tail =>
    match DeepCopyJSONValue head, deepCopyItems tail with
    | some h, some t => some (JSONValues.cons h t)
    | _, _ => none
/-- The loop `for k, v := range x { clone[k] = DeepCopyJSONValue(v) }`. -/
def deepCopyFields : JSONFields → Option JSONFields
  | JSONFields.nil => some JSONFields.nil
  | JSONFields.cons key value tail =>
    match DeepCopyJSONValue value, deepCopyFields tail with
    | some v, some t => some (JSONFields.cons key v t)
    | _, _ => none
end

mutual
/-- A value built only from the types that `DeepCopyJSONValue` supports. -/
def JSONValue.supported : JSONValue → Bool
  | JSONValue.array items => items.supported
  | JSONValue.object fields => fields.supported
  | JSONValue.other _ => false
  | _ => true
/-- Elements that are all supported. -/
def JSONValues.supported : JSONValues → Bool
  | JSONValues.nil => true
  | JSONValues.cons head tail => head.supported && tail.supported
/-- Entries whose values are all supported. -/
def JSONFields.supported : JSONFields → Bool
  | JSONFields.nil => true
  | JSONFields.cons _ value tail => value.supported && tail.supported
end

/-- `(*JSON).DeepCopy`: nil for a nil receiver, and otherwise a pointer to a
new `JSON` whose `Object` is `runtime.DeepCopyJSONValue(j.Object)`. -/
def JSON.DeepCopy (j : Option (JSON JSONValue)) : Option (Option (JSON JSONValue)) :=
  match j with
  | none => some none
  | some j =>
    match DeepCopyJSONValue j.Object with
    | some clone => some (some { Object := clone })
    | none => none

/-- The struct `JSONObject` of `apis/common/json.go`: `Object` is a
`map[string]interface{}`, `none` when it is the nil map. -/
structure JSONObject where
  Object : Option JSONFields

/-- A `map[string]interface{}` passed as an `interface{}`. -/
def mapToInterface (m : Option JSONFields) : JSONValue :=
  match m with
  | none => JSONValue.nilObject
  | some fields => JSONValue.object fields

/-- The type assertion `x.(map[string]interface{})`, which panics (`none`) when
`x` holds anything but a map. -/
def assertMap (x : JSONValue) : Option (Option JSONFields) :=
  match x with
  | JSONValue.nilObject => some none
  | JSONValue.object fields => some (some fields)
  | _ => none

/-- `(*JSONObject).DeepCopy`: nil for a nil receiver, and otherwise a pointer to
a new `JSONObject` whose `Object` is
`runtime.DeepCopyJSONValue(j.Object).(map[string]interface{})`. -/
def JSONObject.DeepCopy (j : Option JSONObject) : Option (Option JSONObject) :=
  match j with
  | none => some none
  | some j =>
    match DeepCopyJSONValue (mapToInterface j.Object) with
    | none => none
    | some clone =>
      match assertMap clone with
      | none => none
      | some m => some (some { Object := m })

/-- `(*JSONObject).DeepCopyInto`: what `target` points to when the call
returns; nothing is written through a nil `target`, and a nil receiver clears
the `Object` of the target. -/
def JSONObject.DeepCopyInto (j : Option JSONObject) (target : Option JSONObject) :
    Option (Option JSONObject) :=
  match target with
  | none => some none
  | some _ =>
    match j with
    | none => some (some { Object := none })
    | some j =>
      match DeepCopyJSONValue (mapToInterface j.Object) with
      | none => none
      | some clone =>
        match assertMap clone with
        | none => none
        | some m => some (some { Object := m })

/-- The map `{"name": "up", "tags": ["a"], "n": 1}`, with `n` an `int64`. -/
def exampleFields : JSONFields :=
  JSONFields.cons "name" (JSONValue.string "up")
    (JSONFields.cons "tags"
      (JSONValue.array (JSONValues.cons (JSONValue.string "a") JSONValues.nil))
      (JSONFields.cons "n" (JSONValue.int64 1) JSONFields.nil))

/-! ## Generated deep copies: `zz_generated.deepcopy.go`

Here pointers are addresses, so that a copy can be told from its original. The
memory keeps the variables of each type in a list of its own; an address is an
index into the list of its type, and `new` appends to it. The declarations of
the types are not among the sources: the structs have the fields that the
copying functions name, and the two types behind `*CrossplaneUpgradeChannel`
and `*CrossplaneState`, which the functions copy by assignment, are the
parameters `χ` and `σ`. A function has no result (`none`) when it reads or
writes an address that holds nothing, which Go excludes. -/

/-- A non-nil `[]string`: its backing array, where it starts in it, and its
length. -/
structure Slice where
  array : Nat
  off : Nat
  len : Nat
  deriving DecidableEq, Repr

/-- The struct `CrossplaneAutoUpgradeSpec`: `Channel` is a
`*CrossplaneUpgradeChannel`. -/
structure CrossplaneAutoUpgradeSpec where
  Channel : Ptr
  deriving DecidableEq, Repr

/-- The struct `CrossplaneSpec`: `Version` is a `*string`, `AutoUpgradeSpec` a
`*CrossplaneAutoUpgradeSpec` and `State` a `*CrossplaneState`. -/
structure CrossplaneSpec where
  Version : Ptr
  AutoUpgradeSpec : Ptr
  State : Ptr
  deriving DecidableEq, Repr

/-- The struct `ControlPlaneBackupConfig`: `ExcludedResources` is a `[]string`,
`none` when it is the nil slice. -/
structure ControlPlaneBackupConfig where
  ExcludedResources : Option Slice
  deriving DecidableEq, Repr

/-- The memory: the variables of each type, by address. -/
structure Heap (χ σ : Type) where
  strings : List String
  channels : List χ
  states : List σ
  autoUpgrades : List CrossplaneAutoUpgradeSpec
  specs : List CrossplaneSpec
  backupConfigs : List ControlPlaneBackupConfig
  arrays : List (List String)

/-- `CrossplaneAutoUpgradeSpec.DeepCopyInto`, on the addresses `inp` and `out`:
the memory when the call returns. -/
def CrossplaneAutoUpgradeSpec.DeepCopyInto {χ σ : Type} (h : Heap χ σ) (inp out : Nat) :
    Option (Heap χ σ) :=
  match h.autoUpgrades[inp]? with
  | none => none
  | some v =>
    if out < h.autoUpgrades.length then
      let h1 : Heap χ σ := { h with autoUpgrades := h.autoUpgrades.set out v }
      match v.Channel with
      | none => some h1
      | some p =>
        match h1.channels[p]? with
        | none => none
        | some ch =>
          some { h1 with
            channels := h1.channels ++ [ch],
            autoUpgrades := h1.autoUpgrades.set out { Channel := some h1.channels.length } }
    else none

/-- `CrossplaneAutoUpgradeSpec.DeepCopy`: the memory when the call returns and
the pointer returned. -/
def CrossplaneAutoUpgradeSpec.DeepCopy {χ σ : Type} (h : Heap χ σ) (inp : Ptr) :
    Option (Heap χ σ × Ptr) :=
  match inp with
  | none => some (h, none)
  | some a =>
    let out := h.autoUpgrades.length
    let h1 : Heap χ σ := { h with autoUpgrades := h.autoUpgrades ++ [{ Channel := none }] }
    match CrossplaneAutoUpgradeSpec.DeepCopyInto h1 a out with
    | none => none
    | some h2 => some (h2, some out)

/-- `ControlPlaneBackupConfig.DeepCopyInto`: `make` allocates an array of
`len(*in)` empty strings and `copy` fills it with the elements of `*in`. -/
def ControlPlaneBackupConfig.DeepCopyInto {χ σ : Type} (h : Heap χ σ) (inp out : Nat) :
    Option (Heap χ σ) :=
  match h.backupConfigs[inp]? with
  | none => none
  | some v =>
    if out < h.backupConfigs.length then
      let h1 : Heap χ σ := { h with backupConfigs := h.backupConfigs.set out v }
      match v.ExcludedResources with
      | none => some h1
      | some s =>
        match h1.arrays[s.array]? with
        | none => none
        | some src =>
          if s.off + s.len ≤ src.length then
            let made : List String := List.replicate s.len ""
            let filled : List String :=
              ((src.drop s.off).take s.len).take made.length ++
                made.drop ((src.drop s.off).take s.len).length
            some { h1 with
              arrays := h1.arrays ++ [filled],
              backupConfigs := h1.backupConfigs.set out
                { ExcludedResources :=
                    some { array := h1.arrays.length, off := 0, len := s.len } } }
          else none
    else none

/-- `ControlPlaneBackupConfig.DeepCopy`. -/
def ControlPlaneBackupConfig.DeepCopy {χ σ : Type} (h : Heap χ σ) (inp : Ptr) :
    Option (Heap χ σ × Ptr) :=
  match inp with
  | none => some (h, none)
  | some a =>
    let out := h.backupConfigs.length
    let h1 : Heap χ σ :=
      { h with backupConfigs := h.backupConfigs ++ [{ ExcludedResources := none }] }
    match ControlPlaneBackupConfig.DeepCopyInto h1 a out with
    | none => none
    | some h2 => some (h2, some out)

/-- `CrossplaneSpec.DeepCopyInto`, on the addresses `inp` and `out`: the memory
when the call returns. -/
def CrossplaneSpec.DeepCopyInto {χ σ : Type} (h : Heap χ σ) (inp out : Nat) :
    Option (Heap χ σ) :=
  match h.specs[inp]? with
  | none => none
  | some v =>
    if out < h.specs.length then
      let h1 : Heap χ σ := { h with specs := h.specs.set out v }
      let afterVersion : Option (Heap χ σ) :=
        match v.Version with
        | none => some h1
        | some p =>
          match h1.strings[p]?, h1.specs[out]? with
          | some str, some o =>
            some { h1 with
              strings := h1.strings ++ [str],
              specs := h1.specs.set out { o with Version := some h1.strings.length } }
          | _, _ => none
      match afterVersion with
      | none => none
      | some h2 =>
        let afterAutoUpgrade : Option (Heap χ σ) :=
          match v.AutoUpgradeSpec with
          | none => some h2
          | some p =>
            match h2.specs[out]? with
            | none => none
            | some o =>
              CrossplaneAutoUpgradeSpec.DeepCopyInto
                { h2 with
                  autoUpgrades := h2.autoUpgrades ++ [{ Channel := none }],
                  specs := h2.specs.set out
                    { o with AutoUpgradeSpec := some h2.autoUpgrades.length } }
                p h2.autoUpgrades.length
        match afterAutoUpgrade with
        | none => none
        | some h3 =>
          match v.State with
          | none => some h3
          | some p =>
            match h3.states[p]?, h3.specs[out]? with
            | some st, some o =>
              some { h3 with
                states := h3.states ++ [st],
                specs := h3.specs.set out { o with State := some h3.states.length } }
            | _, _ => none
    else none

/-- `CrossplaneSpec.DeepCopy`. -/
def CrossplaneSpec.DeepCopy {χ σ : Type} (h : Heap χ σ) (inp : Ptr) :
    Option (Heap χ σ × Ptr) :=
  match inp with
  | none => some (h, none)
  | some a =>
    let out := h.specs.length
    let h1 : Heap χ σ :=
      { h with specs := h.specs ++ [{ Version := none, AutoUpgradeSpec := none, State := none }] }
    match CrossplaneSpec.DeepCopyInto h1 a out with
    | none => none
    | some h2 => some (h2, some out)

/-- What a pointer into `mem` points to: `some none` for nil, and no answer for
an address that holds nothing. -/
def deref {α : Type} (mem : List α) (p : Ptr) : Option (Option α) :=
  match p with
  | none => some none
  | some a =>
    match mem[a]? with
    | some x => some (some x)
    | none => none

/-- A `CrossplaneAutoUpgradeSpec` by content: what `Channel` points to. -/
structure AutoUpgradeContent (χ : Type) where
  Channel : Option χ

/-- A `CrossplaneSpec` by content: what its three pointers point to. -/
structure SpecContent (χ σ : Type) where
  Version : Option String
  AutoUpgradeSpec : Option (AutoUpgradeContent χ)
  State : Option σ

/-- The content of a `CrossplaneAutoUpgradeSpec` in the memory `h`. -/
def Heap.autoUpgradeContent {χ σ : Type} (h : Heap χ σ) (v : CrossplaneAutoUpgradeSpec) :
    Option (AutoUpgradeContent χ) :=
  match deref h.channels v.Channel with
  | some c => some { Channel := c }
  | none => none

/-- The content of what a `*CrossplaneAutoUpgradeSpec` points to. -/
def Heap.autoUpgradeAt {χ σ : Type} (h : Heap χ σ) (p : Ptr) :
    Option (Option (AutoUpgradeContent χ)) :=
  match p with
  | none => some none
  | some a =>
    match h.autoUpgrades[a]? with
    | none => none
    | some v =>
      match h.autoUpgradeContent v with
      | some c => some (some c)
      | none => none

/-- The content of a `CrossplaneSpec` in the memory `h`. -/
def Heap.specContent {χ σ : Type} (h : Heap χ σ) (v : CrossplaneSpec) :
    Option (SpecContent χ σ) :=
  match deref h.strings v.Version, h.autoUpgradeAt v.AutoUpgradeSpec,
      deref h.states v.State with
  | some ver, some au, some st => some { Version := ver, AutoUpgradeSpec := au, State := st }
  | _, _, _ => none

/-- The content of a `[]string` in the memory `h`: `some none` for the nil
slice, and otherwise its elements in order. -/
def Heap.sliceContent {χ σ : Type} (h : Heap χ σ) (s : Option Slice) :
    Option (Option (List String)) :=
  match s with
  | none => some none
  | some s =>
    match h.arrays[s.array]? with
    | none => none
    | some arr =>
      if s.off + s.len ≤ arr.length then some (some ((arr.drop s.off).take s.len)) else none

/-- The memory `h1` holds everything `h` holds, at the same addresses, and
possibly more. -/
def Heap.Extends {χ σ : Type} (h h1 : Heap χ σ) : Prop :=
  h.strings <+: h1.strings ∧ h.channels <+: h1.channels ∧ h.states <+: h1.states ∧
    h.autoUpgrades <+: h1.autoUpgrades ∧ h.specs <+: h1.specs ∧
    h.backupConfigs <+: h1.backupConfigs ∧ h.arrays <+: h1.arrays

/-- A pointer that is nil or points beyond the first `n` variables: to nothing
that existed when there were `n`. -/
def Ptr.newSince (p : Ptr) (n : Nat) : Prop :=
  ∀ a, p = some a → n ≤ a

/-- A memory with one string, one channel, one state, an auto-upgrade struct
pointing to the channel, a spec pointing to all of them, a backup configuration
whose slice is the middle two elements of an array of four, and one with the
nil slice. -/
def exampleHeap : Heap String String :=
  { strings := ["1.14"], channels := ["Stable"], states := ["Running"],
    autoUpgrades := [{ Channel := some 0 }],
    specs := [{ Version := some 0, AutoUpgradeSpec := some 0, State := some 0 }],
    backupConfigs := [{ ExcludedResources := some { array := 0, off := 1, len := 2 } },
                      { ExcludedResources := none }],
    arrays := [["a", "b", "c", "d"]] }

/-! ## Facts about the reason phrases -/

/-- A lookup in a table of non-empty texts finds a text exactly for the keys
of the table. -/
theorem lookup_text_iff (l : List (Int × String)) (hl : ∀ p ∈ l, p.2 ≠ "") (code : Int) :
    (match l.lookup code with | some text => text | none => "") ≠ "" ↔
      code ∈ l.map Prod.fst := by
  induction l with
  | nil => simp
  | cons p l ih =>
    obtain ⟨k, t⟩ := p
    have ht : t ≠ "" := hl (k, t) (List.mem_cons_self _ _)
    have ih2 := ih (fun q hq => hl q (List.mem_cons_of_mem _ hq))
    by_cases hk : code = k
    · subst hk
      simp [List.lookup, ht]
    · have hb : (code == k) = false := by simpa using hk
      simp only [List.lookup, hb, List.map_cons, List.mem_cons, hk, false_or]
      exact ih2

/-- Every reason phrase of the table is non-empty. -/
theorem statusTexts_nonempty : ∀ p ∈ statusTexts, p.2 ≠ "" := by
  decide

/-- The listed status codes are exactly those with a reason phrase. -/
theorem StatusText_ne_empty_iff (code : Int) :
    StatusText code ≠ "" ↔ code ∈ knownStatusCodes :=
  lookup_text_iff statusTexts statusTexts_nonempty code

/-! ## The error classifier: `DefaultErrorHandler.Handle` -/

/-- On a status outside [200,300) whose body is read without error, `Handle`
answers with the decoded envelope when the decoding succeeds with a non-zero
status, and with the fallback error otherwise. -/
theorem Handle_of_read_ok (unmarshal : Unmarshal Error) (res : Response)
    (hs : ¬ (200 ≤ res.StatusCode ∧ res.StatusCode < 300)) (hr : res.Body.fail = none) :
    (DefaultErrorHandler.Handle unmarshal res).1 =
      if (unmarshal res.Body.data Error.zero).2 = none ∧
          (unmarshal res.Body.data Error.zero).1.Status ≠ 0 then
        some (unmarshal res.Body.data Error.zero).1
      else
        some { Status := res.StatusCode, Title := StatusText res.StatusCode,
               Detail := if res.Body.data ≠ "" then some res.Body.data else none } := by
  have hs2 : ¬ (res.StatusCode ≥ 200 ∧ res.StatusCode < 300) := hs
  simp only [DefaultErrorHandler.Handle, ReadAll, hs2, hr, if_false, if_true]
  split_ifs <;> rfl

/-- On a status outside [200,300) whose body cannot be read, `Handle` answers
with the fallback error without detail. -/
theorem Handle_of_read_error (unmarshal : Unmarshal Error) (res : Response)
    (hs : ¬ (200 ≤ res.StatusCode ∧ res.StatusCode < 300)) (hr : res.Body.fail ≠ none) :
    (DefaultErrorHandler.Handle unmarshal res).1 =
      some { Status := res.StatusCode, Title := StatusText res.StatusCode,
             Detail := none } := by
  have hs2 : ¬ (res.StatusCode ≥ 200 ∧ res.StatusCode < 300) := hs
  simp only [DefaultErrorHandler.Handle, ReadAll, hs2, hr, if_false]

/-- C1: for every response and whatever its body holds (readable or not, and
whatever the JSON decoder makes of it), `DefaultErrorHandler.Handle` returns
the nil error if and only if the status code `s` satisfies `200 <= s < 300`;
for every other status the result is a non-nil error. -/
theorem Handle_nil_iff_status_2xx (unmarshal : Unmarshal Error) (res : Response) :
    ((DefaultErrorHandler.Handle unmarshal res).1 = none ↔
        (200 ≤ res.StatusCode ∧ res.StatusCode < 300)) ∧
      ((DefaultErrorHandler.Handle unmarshal res).1.isSome ↔
        ¬ (200 ≤ res.StatusCode ∧ res.StatusCode < 300)) := by
  by_cases hs : 200 ≤ res.StatusCode ∧ res.StatusCode < 300
  · have hs2 : res.StatusCode ≥ 200 ∧ res.StatusCode < 300 := hs
    simp [DefaultErrorHandler.Handle, hs2, hs]
  · by_cases hr : res.Body.fail = none
    · rw [Handle_of_read_ok unmarshal res hs hr]
      split_ifs <;> simp [hs]
    · rw [Handle_of_read_error unmarshal res hs hr]
      simp [hs]

/-- C2: for a status outside [200,300), when the body is read without error
and decodes as an envelope `e` with a non-zero status field, `Handle` returns
exactly `e`: status, title and detail are those of the body. -/
theorem Handle_returns_envelope (unmarshal : Unmarshal Error) (res : Response) (e : Error)
    (hs : ¬ (200 ≤ res.StatusCode ∧ res.StatusCode < 300))
    (hr : res.Body.fail = none)
    (hu : unmarshal res.Body.data Error.zero = (e, none))
    (he : e.Status ≠ 0) :
    (DefaultErrorHandler.Handle unmarshal res).1 = some e := by
  rw [Handle_of_read_ok unmarshal res hs hr, hu]
  simp [he]

/-- C2 at the example of the specification: status 404 with the body
`{"status":404,"title":"Not Found","detail":"x"}`. -/
theorem Handle_returns_envelope_witness :
    (DefaultErrorHandler.Handle exampleUnmarshalError
        { StatusCode := 404, Body := { data := envelopeBody, fail := none } }).1 =
      some { Status := 404, Title := "Not Found", Detail := some "x" } :=
  Handle_returns_envelope exampleUnmarshalError
    { StatusCode := 404, Body := { data := envelopeBody, fail := none } }
    { Status := 404, Title := "Not Found", Detail := some "x" }
    (by decide) rfl (by decide) (by decide)

/-- C3: for a status `s` outside [200,300) and an empty body, `Handle` returns
the error with status `s`, title the reason phrase of `s` and no detail (nil,
not the empty string); for `s = 503` the title is "Service Unavailable". The
decoder is any `json.Unmarshal` that, like Go's, rejects the empty input. -/
theorem Handle_empty_body (unmarshal : Unmarshal Error) (res : Response)
    (hjson : (unmarshal "" Error.zero).2 ≠ none)
    (hs : ¬ (200 ≤ res.StatusCode ∧ res.StatusCode < 300))
    (hb : res.Body.data = "") :
    (DefaultErrorHandler.Handle unmarshal res).1 =
        some { Status := res.StatusCode, Title := StatusText res.StatusCode,
               Detail := none } ∧
      (res.StatusCode = 503 →
        (DefaultErrorHandler.Handle unmarshal res).1 =
          some { Status := 503, Title := "Service Unavailable", Detail := none }) := by
  have key : (DefaultErrorHandler.Handle unmarshal res).1 =
      some { Status := res.StatusCode, Title := StatusText res.StatusCode,
             Detail := none } := by
    by_cases hr : res.Body.fail = none
    · rw [Handle_of_read_ok unmarshal res hs hr, hb]
      simp [hjson]
    · exact Handle_of_read_error unmarshal res hs hr
  refine ⟨key, fun h503 => ?_⟩
  rw [key, h503]
  rfl

/-- C3 at the example of the specification: status 503 with an empty body. -/
theorem Handle_empty_body_witness :
    (DefaultErrorHandler.Handle exampleUnmarshalError
        { StatusCode := 503, Body := { data := "", fail := none } }).1 =
      some { Status := 503, Title := "Service Unavailable", Detail := none } :=
  (Handle_empty_body exampleUnmarshalError
    { StatusCode := 503, Body := { data := "", fail := none } }
    (by decide) (by decide) rfl).2 rfl

/-- C4: for a status `s` outside [200,300), when the body is non-empty, is read
without error, and either fails to decode as an envelope or decodes with a
status field of zero, `Handle` returns the error with status `s`, title the
reason phrase of `s`, and detail the whole raw body, unmodified. -/
theorem Handle_raw_body_detail (unmarshal : Unmarshal Error) (res : Response)
    (hs : ¬ (200 ≤ res.StatusCode ∧ res.StatusCode < 300))
    (hne : res.Body.data ≠ "")
    (hr : res.Body.fail = none)
    (hu : (unmarshal res.Body.data Error.zero).2 ≠ none ∨
          (unmarshal res.Body.data Error.zero).1.Status = 0) :
    (DefaultErrorHandler.Handle unmarshal res).1 =
      some { Status := res.StatusCode, Title := StatusText res.StatusCode,
             Detail := some res.Body.data } := by
  rw [Handle_of_read_ok unmarshal res hs hr]
  have hcond : ¬ ((unmarshal res.Body.data Error.zero).2 = none ∧
      (unmarshal res.Body.data Error.zero).1.Status ≠ 0) := by
    rintro ⟨h1, h2⟩
    rcases hu with h | h
    · exact h h1
    · exact h2 h
  simp [hcond, hne]

/-- C4 at the example of the specification: status 400 with the body
`plain text oops`. -/
theorem Handle_raw_body_detail_witness :
    (DefaultErrorHandler.Handle exampleUnmarshalError
        { StatusCode := 400, Body := { data := "plain text oops", fail := none } }).1 =
      some { Status := 400, Title := "Bad Request", Detail := some "plain text oops" } :=
  Handle_raw_body_detail exampleUnmarshalError
    { StatusCode := 400, Body := { data := "plain text oops", fail := none } }
    (by decide) (by decide) rfl (Or.inl (by decide))

/-- C5: for a status `s` outside [200,300), when reading the body ends in an
error `e` (after delivering any bytes, possibly a whole envelope), `Handle`
returns the error with status `s`, title the reason phrase of `s` and no
detail: the result does not depend on `e`, on the bytes read or on the
decoder, and seen as a Go `error` it is that fallback value, not `e`
itself. -/
theorem Handle_unreadable_body (unmarshal : Unmarshal Error) (res : Response) (e : GoError)
    (hs : ¬ (200 ≤ res.StatusCode ∧ res.StatusCode < 300))
    (hr : res.Body.fail = some e) :
    (DefaultErrorHandler.Handle unmarshal res).1 =
        some { Status := res.StatusCode, Title := StatusText res.StatusCode,
               Detail := none } ∧
      (DefaultErrorHandler.asHandler unmarshal res).1 =
        some (GoError.api { Status := res.StatusCode, Title := StatusText res.StatusCode,
                            Detail := none }) := by
  have hr2 : res.Body.fail ≠ none := by rw [hr]; exact Option.some_ne_none e
  have key := Handle_of_read_error unmarshal res hs hr2
  refine ⟨key, ?_⟩
  simp only [DefaultErrorHandler.asHandler, key, Option.map_some']

/-- C5 at a concrete response: status 404 whose body delivers a whole envelope
and then fails with `unexpected EOF`. -/
theorem Handle_unreadable_body_witness :
    (DefaultErrorHandler.Handle exampleUnmarshalError
        { StatusCode := 404,
          Body := { data := envelopeBody, fail := some (GoError.other "unexpected EOF") } }).1 =
      some { Status := 404, Title := "Not Found", Detail := none } :=
  (Handle_unreadable_body exampleUnmarshalError
    { StatusCode := 404,
      Body := { data := envelopeBody, fail := some (GoError.other "unexpected EOF") } }
    (GoError.other "unexpected EOF") (by decide) rfl).1

/-- Outside the envelope case, `Handle` builds the fallback error from the
status of the response. -/
theorem Handle_fallback (unmarshal : Unmarshal Error) (res : Response)
    (hs : ¬ (200 ≤ res.StatusCode ∧ res.StatusCode < 300))
    (hfb : ¬ returnsEnvelope unmarshal res) :
    ∃ d, (DefaultErrorHandler.Handle unmarshal res).1 =
      some { Status := res.StatusCode, Title := StatusText res.StatusCode, Detail := d } := by
  by_cases hr : res.Body.fail = none
  · rw [Handle_of_read_ok unmarshal res hs hr]
    have hcond : ¬ ((unmarshal res.Body.data Error.zero).2 = none ∧
        (unmarshal res.Body.data Error.zero).1.Status ≠ 0) :=
      fun h => hfb ⟨hr, h⟩
    rw [if_neg hcond]
    exact ⟨_, rfl⟩
  · exact ⟨none, Handle_of_read_error unmarshal res hs hr⟩

/-- C6 (as stated, refuted): a 502 response whose body is the envelope
`{"status":404,"title":"Not Found","detail":"x"}` yields an error with status
404, not 502. -/
theorem Handle_status_differs_from_http_status :
    Option.map Error.Status
        (DefaultErrorHandler.Handle exampleUnmarshalError
          { StatusCode := 502, Body := { data := envelopeBody, fail := none } }).1 = some 404 ∧
      Option.map Error.Status
        (DefaultErrorHandler.Handle exampleUnmarshalError
          { StatusCode := 502, Body := { data := envelopeBody, fail := none } }).1 ≠ some 502 := by
  decide

/-- C6 (amended): for a status `s` outside [200,300), `Handle` returns an error
`e`; when the body is read and decodes as an envelope with a non-zero status,
`e` is that envelope and its status is the envelope's non-zero status; in
every other case the status of `e` is `s`. -/
theorem Handle_status (unmarshal : Unmarshal Error) (res : Response)
    (hs : ¬ (200 ≤ res.StatusCode ∧ res.StatusCode < 300)) :
    ∃ e, (DefaultErrorHandler.Handle unmarshal res).1 = some e ∧
      (returnsEnvelope unmarshal res →
        e = (unmarshal res.Body.data Error.zero).1 ∧ e.Status ≠ 0) ∧
      (¬ returnsEnvelope unmarshal res → e.Status = res.StatusCode) := by
  by_cases henv : returnsEnvelope unmarshal res
  · obtain ⟨hr, hu, hz⟩ := henv
    refine ⟨(unmarshal res.Body.data Error.zero).1, ?_, fun _ => ⟨rfl, hz⟩,
      fun h => absurd ⟨hr, hu, hz⟩ h⟩
    rw [Handle_of_read_ok unmarshal res hs hr, if_pos ⟨hu, hz⟩]
  · obtain ⟨d, hd⟩ := Handle_fallback unmarshal res hs henv
    exact ⟨_, hd, fun h => absurd h henv, fun _ => rfl⟩

/-- C6 (amended) at a concrete response: status 400 with the body
`plain text oops`. -/
theorem Handle_status_witness :
    ∃ e, (DefaultErrorHandler.Handle exampleUnmarshalError
        { StatusCode := 400, Body := { data := "plain text oops", fail := none } }).1 = some e ∧
      (returnsEnvelope exampleUnmarshalError
          { StatusCode := 400, Body := { data := "plain text oops", fail := none } } →
        e = (exampleUnmarshalError "plain text oops" Error.zero).1 ∧ e.Status ≠ 0) ∧
      (¬ returnsEnvelope exampleUnmarshalError
          { StatusCode := 400, Body := { data := "plain text oops", fail := none } } →
        e.Status = 400) :=
  Handle_status exampleUnmarshalError
    { StatusCode := 400, Body := { data := "plain text oops", fail := none } } (by decide)

/-- C7 (as stated, refuted): a 520 response with an empty body yields an error
whose title is the empty string, and so does a 404 response whose body is the
envelope `{"status":404}`. -/
theorem Handle_title_may_be_empty :
    (DefaultErrorHandler.Handle exampleUnmarshalError
        { StatusCode := 520, Body := { data := "", fail := none } }).1 =
      some { Status := 520, Title := "", Detail := none } ∧
    (DefaultErrorHandler.Handle exampleUnmarshalError
        { StatusCode := 404, Body := { data := bareEnvelopeBody, fail := none } }).1 =
      some { Status := 404, Title := "", Detail := none } := by
  decide

/-- C7 (amended): for a status `s` outside [200,300), when `Handle` does not
return the decoded envelope, the title of the error it returns is the reason
phrase of `s`, and it is non-empty exactly when `s` is one of the status codes
that `http.StatusText` names. -/
theorem Handle_title (unmarshal : Unmarshal Error) (res : Response)
    (hs : ¬ (200 ≤ res.StatusCode ∧ res.StatusCode < 300))
    (hfb : ¬ returnsEnvelope unmarshal res) :
    ∃ e, (DefaultErrorHandler.Handle unmarshal res).1 = some e ∧
      e.Title = StatusText res.StatusCode ∧
      (e.Title ≠ "" ↔ res.StatusCode ∈ knownStatusCodes) := by
  obtain ⟨d, hd⟩ := Handle_fallback unmarshal res hs hfb
  exact ⟨_, hd, rfl, StatusText_ne_empty_iff res.StatusCode⟩

/-- C7 (amended) at a concrete response: status 503 with an empty body. -/
theorem Handle_title_witness :
    ∃ e, (DefaultErrorHandler.Handle exampleUnmarshalError
        { StatusCode := 503, Body := { data := "", fail := none } }).1 = some e ∧
      e.Title = "Service Unavailable" ∧
      (e.Title ≠ "" ↔ (503 : Int) ∈ knownStatusCodes) :=
  Handle_title exampleUnmarshalError
    { StatusCode := 503, Body := { data := "", fail := none } } (by decide)
    (by unfold returnsEnvelope; decide)

/-! ## The request client: `HTTPClient.Do` -/

/-- C8: when the round trip completes with a response and the error classifier
reports the failure `e` for it, `Do` returns exactly `e`, and the result
container is as the caller supplied it (supplied or not); `Do` closes the body
without having read or decoded it, whatever the decoder is. -/
theorem Do_returns_classifier_error {σ : Type} (unmarshal : Unmarshal σ) (c : HTTPClient)
    (req : Request) (obj : Option σ) (res : Response) (e : GoError)
    (hrt : c.HTTP req = Except.ok res)
    (hh : (c.ErrorHandler res).1 = some e) :
    (HTTPClient.Do unmarshal c req obj).err = some e ∧
      (HTTPClient.Do unmarshal c req obj).obj = obj ∧
      (HTTPClient.Do unmarshal c req obj).trace = [Event.handle, Event.close] ∧
      Event.readAll ∉ (HTTPClient.Do unmarshal c req obj).trace ∧
      Event.unmarshal ∉ (HTTPClient.Do unmarshal c req obj).trace := by
  have hd : HTTPClient.Do unmarshal c req obj =
      { err := some e, obj := obj, trace := [Event.handle, Event.close] } := by
    simp only [HTTPClient.Do, hrt, HTTPClient.handleErrors, hh]
  rw [hd]
  simp

/-- C8 at a concrete call: a 404 response carrying the envelope of the
specification, with a container holding 5. -/
theorem Do_returns_classifier_error_witness :
    (HTTPClient.Do exampleUnmarshalInt
        (exampleClient { StatusCode := 404, Body := { data := envelopeBody, fail := none } })
        exampleRequest (some 5)).err =
      some (GoError.api { Status := 404, Title := "Not Found", Detail := some "x" }) ∧
    (HTTPClient.Do exampleUnmarshalInt
        (exampleClient { StatusCode := 404, Body := { data := envelopeBody, fail := none } })
        exampleRequest (some 5)).obj = some 5 :=
  have h := Do_returns_classifier_error exampleUnmarshalInt
    (exampleClient { StatusCode := 404, Body := { data := envelopeBody, fail := none } })
    exampleRequest (some 5)
    { StatusCode := 404, Body := { data := envelopeBody, fail := none } }
    (GoError.api { Status := 404, Title := "Not Found", Detail := some "x" })
    rfl (by decide)
  ⟨h.1, h.2.1⟩

/-- C9: when the round trip fails with the error `e`, `Do` returns the non-nil
error that wraps `e` with the message `failed to perform request with ID: `
followed by the correlation identifier read from the context of the request;
the container is left as supplied, and nothing else happens: no handler call,
no read, no decoding, so that the outcome is the same for every error
classifier the client could hold. -/
theorem Do_wraps_transport_error {σ : Type} (unmarshal : Unmarshal σ) (c : HTTPClient)
    (req : Request) (obj : Option σ) (e : GoError)
    (hrt : c.HTTP req = Except.error e) :
    (HTTPClient.Do unmarshal c req obj).err =
        some (GoError.wrapped e
          ("failed to perform request with ID: " ++ IDFromContext req.ctx)) ∧
      (HTTPClient.Do unmarshal c req obj).obj = obj ∧
      (HTTPClient.Do unmarshal c req obj).trace = [] ∧
      (∀ h : ResponseErrorHandler,
        (HTTPClient.Do unmarshal { c with ErrorHandler := h } req obj).err =
            (HTTPClient.Do unmarshal c req obj).err ∧
          (HTTPClient.Do unmarshal { c with ErrorHandler := h } req obj).obj =
            (HTTPClient.Do unmarshal c req obj).obj) := by
  have hd : ∀ h : ResponseErrorHandler,
      HTTPClient.Do unmarshal { c with ErrorHandler := h } req obj =
        { err := some (GoError.wrapped e
            ("failed to perform request with ID: " ++ IDFromContext req.ctx)),
          obj := obj, trace := [] } := by
    intro h
    simp only [HTTPClient.Do, hrt]
  have hc := hd c.ErrorHandler
  simp only [] at hc
  refine ⟨by rw [hc], by rw [hc], by rw [hc], fun h => ?_⟩
  rw [hd h, hc]
  exact ⟨rfl, rfl⟩

/-- C9 at a concrete call: the transport reports `connection refused` for a
request whose context carries the identifier `req-1`. -/
theorem Do_wraps_transport_error_witness :
    (HTTPClient.Do exampleUnmarshalInt
        (exampleFailingClient (GoError.other "connection refused"))
        exampleRequest (some 5)).err =
      some (GoError.wrapped (GoError.other "connection refused")
        "failed to perform request with ID: req-1") ∧
    (HTTPClient.Do exampleUnmarshalInt
        (exampleFailingClient (GoError.other "connection refused"))
        exampleRequest (some 5)).obj = some 5 :=
  have h := Do_wraps_transport_error exampleUnmarshalInt
    (exampleFailingClient (GoError.other "connection refused"))
    exampleRequest (some 5) (GoError.other "connection refused") rfl
  ⟨h.1, h.2.1⟩

/-- With the default classifier, a response with a status in [200,300) is
accepted and its body is handed on unread. -/
theorem asHandler_accepts_2xx (unmarshalError : Unmarshal Error) (res : Response)
    (hs : 200 ≤ res.StatusCode ∧ res.StatusCode < 300) :
    DefaultErrorHandler.asHandler unmarshalError res = (none, res.Body) := by
  have hs2 : res.StatusCode ≥ 200 ∧ res.StatusCode < 300 := hs
  simp [DefaultErrorHandler.asHandler, DefaultErrorHandler.Handle, hs2]

/-- C10 (as stated, refuted): a 204 response with an empty body, handled by a
client with the default classifier, makes `Do` return an error when a result
container is supplied: the empty body is not a JSON document. The container
keeps the value 5 it came with. -/
theorem Do_2xx_may_return_error :
    (HTTPClient.Do exampleUnmarshalInt
        (exampleClient { StatusCode := 204, Body := { data := "", fail := none } })
        exampleRequest (some 5)).err =
      some (GoError.other "unexpected end of JSON input") ∧
    (HTTPClient.Do exampleUnmarshalInt
        (exampleClient { StatusCode := 204, Body := { data := "", fail := none } })
        exampleRequest (some 5)).obj = some 5 := by
  decide

/-- C10 (amended): for a response with a status in [200,300) handled by a
client with the default classifier: without a result container `Do` returns no
error; with a container and a body read without error, the container is what
unmarshalling the body into it leaves and `Do` returns the error of that
unmarshalling, so no error when the body is valid JSON for the container; with
a container and a body whose read fails, `Do` returns the read error and the
container is as supplied. -/
theorem Do_2xx_default_classifier {σ : Type} (unmarshalError : Unmarshal Error)
    (unmarshal : Unmarshal σ) (c : HTTPClient) (req : Request) (obj : Option σ)
    (res : Response)
    (hc : c.ErrorHandler = DefaultErrorHandler.asHandler unmarshalError)
    (hrt : c.HTTP req = Except.ok res)
    (hs : 200 ≤ res.StatusCode ∧ res.StatusCode < 300) :
    (obj = none →
        (HTTPClient.Do unmarshal c req obj).err = none ∧
        (HTTPClient.Do unmarshal c req obj).obj = none) ∧
      (∀ o, obj = some o → res.Body.fail = none →
        (HTTPClient.Do unmarshal c req obj).obj = some (unmarshal res.Body.data o).1 ∧
        (HTTPClient.Do unmarshal c req obj).err = (unmarshal res.Body.data o).2 ∧
        ((unmarshal res.Body.data o).2 = none →
          (HTTPClient.Do unmarshal c req obj).err = none)) ∧
      (∀ o e, obj = some o → res.Body.fail = some e →
        (HTTPClient.Do unmarshal c req obj).err = some e ∧
        (HTTPClient.Do unmarshal c req obj).obj = obj) := by
  have hh : c.ErrorHandler res = (none, res.Body) := by
    rw [hc]
    exact asHandler_accepts_2xx unmarshalError res hs
  refine ⟨?_, ?_, ?_⟩
  · intro hobj
    subst hobj
    have hd : HTTPClient.Do unmarshal c req none =
        { err := none, obj := none, trace := [Event.handle, Event.close] } := by
      simp only [HTTPClient.Do, hrt, HTTPClient.handleErrors, hh]
    rw [hd]
    exact ⟨rfl, rfl⟩
  · intro o hobj hr
    subst hobj
    have hd : HTTPClient.Do unmarshal c req (some o) =
        { err := (unmarshal res.Body.data o).2, obj := some (unmarshal res.Body.data o).1,
          trace := [Event.handle, Event.readAll, Event.unmarshal, Event.close] } := by
      simp only [HTTPClient.Do, hrt, HTTPClient.handleErrors, hh, ReadAll, hr]
    rw [hd]
    exact ⟨rfl, rfl, fun h => h⟩
  · intro o e hobj hr
    subst hobj
    have hd : HTTPClient.Do unmarshal c req (some o) =
        { err := some e, obj := some o,
          trace := [Event.handle, Event.readAll, Event.close] } := by
      simp only [HTTPClient.Do, hrt, HTTPClient.handleErrors, hh, ReadAll, hr]
    rw [hd]
    exact ⟨rfl, rfl⟩

/-- C10 (amended) at a concrete call: a 200 response with the body `7` and a
container holding 5; `Do` returns no error and the container holds 7. -/
theorem Do_2xx_default_classifier_witness :
    (HTTPClient.Do exampleUnmarshalInt
        (exampleClient { StatusCode := 200, Body := { data := "7", fail := none } })
        exampleRequest (some 5)).obj = some 7 ∧
    (HTTPClient.Do exampleUnmarshalInt
        (exampleClient { StatusCode := 200, Body := { data := "7", fail := none } })
        exampleRequest (some 5)).err = none :=
  have h := (Do_2xx_default_classifier exampleUnmarshalError exampleUnmarshalInt
    (exampleClient { StatusCode := 200, Body := { data := "7", fail := none } })
    exampleRequest (some 5)
    { StatusCode := 200, Body := { data := "7", fail := none } }
    rfl rfl (by decide)).2.1 5 rfl rfl
  ⟨h.1, h.2.1⟩

/-- C11: when the round trip completes, the error classifier accepts the
response and a result container is supplied, a failing read of the body makes
`Do` return the read error itself, and a failing `json.Unmarshal` of the bytes
read (the empty body included, for a decoder that rejects it) makes `Do`
return the decoder's error itself: neither is wrapped or replaced. -/
theorem Do_returns_decode_error {σ : Type} (unmarshal : Unmarshal σ) (c : HTTPClient)
    (req : Request) (o : σ) (res : Response)
    (hrt : c.HTTP req = Except.ok res)
    (hh : (c.ErrorHandler res).1 = none) :
    (∀ e, (c.ErrorHandler res).2.fail = some e →
        (HTTPClient.Do unmarshal c req (some o)).err = some e) ∧
      (∀ e, (c.ErrorHandler res).2.fail = none →
        (unmarshal (c.ErrorHandler res).2.data o).2 = some e →
        (HTTPClient.Do unmarshal c req (some o)).err = some e) ∧
      ((c.ErrorHandler res).2.fail = none → (c.ErrorHandler res).2.data = "" →
        (HTTPClient.Do unmarshal c req (some o)).err = (unmarshal "" o).2) := by
  refine ⟨fun e hf => ?_, fun e hf hu => ?_, fun hf hd => ?_⟩
  · simp only [HTTPClient.Do, hrt, HTTPClient.handleErrors, hh, ReadAll, hf]
  · simp only [HTTPClient.Do, hrt, HTTPClient.handleErrors, hh, ReadAll, hf, hu]
  · simp only [HTTPClient.Do, hrt, HTTPClient.handleErrors, hh, ReadAll, hf, hd]

/-- C11 at a concrete call: a 200 response whose body is `plain text oops`,
with a container holding 5. -/
theorem Do_returns_decode_error_witness :
    (HTTPClient.Do exampleUnmarshalInt
        (exampleClient { StatusCode := 200, Body := { data := "plain text oops", fail := none } })
        exampleRequest (some 5)).err =
      some (GoError.other "invalid character looking for beginning of value") :=
  (Do_returns_decode_error exampleUnmarshalInt
    (exampleClient { StatusCode := 200, Body := { data := "plain text oops", fail := none } })
    exampleRequest 5
    { StatusCode := 200, Body := { data := "plain text oops", fail := none } }
    rfl (by decide)).2.1
    (GoError.other "invalid character looking for beginning of value") (by decide) (by decide)

/-- C12: when the round trip completes, the error classifier accepts the
response and no result container is supplied, `Do` returns no error and does
nothing but call the classifier and close the body: it neither reads nor
decodes the body, so the outcome is the same for every body (unreadable or not
JSON included) that the classifier accepts and for every decoder. -/
theorem Do_without_container {σ : Type} (unmarshal : Unmarshal σ) (c : HTTPClient)
    (req : Request) (res : Response)
    (hrt : c.HTTP req = Except.ok res)
    (hh : (c.ErrorHandler res).1 = none) :
    (HTTPClient.Do unmarshal c req none).err = none ∧
      (HTTPClient.Do unmarshal c req none).obj = none ∧
      (HTTPClient.Do unmarshal c req none).trace = [Event.handle, Event.close] ∧
      Event.readAll ∉ (HTTPClient.Do unmarshal c req none).trace ∧
      Event.unmarshal ∉ (HTTPClient.Do unmarshal c req none).trace := by
  have hd : HTTPClient.Do unmarshal c req none =
      { err := none, obj := none, trace := [Event.handle, Event.close] } := by
    simp only [HTTPClient.Do, hrt, HTTPClient.handleErrors, hh]
  rw [hd]
  simp

/-- C12 at a concrete call: a 200 response whose body is not JSON and whose
read would fail, without a container. -/
theorem Do_without_container_witness :
    (HTTPClient.Do exampleUnmarshalInt
        (exampleClient
          { StatusCode := 200,
            Body := { data := "plain text oops", fail := some (GoError.other "unexpected EOF") } })
        exampleRequest none).err = none :=
  (Do_without_container exampleUnmarshalInt
    (exampleClient
      { StatusCode := 200,
        Body := { data := "plain text oops", fail := some (GoError.other "unexpected EOF") } })
    exampleRequest
    { StatusCode := 200,
      Body := { data := "plain text oops", fail := some (GoError.other "unexpected EOF") } }
    rfl (by decide)).1

/-- C13: whenever the round trip hands `Do` a response, the deferred close of
the body has run by the time `Do` returns, exactly once and as the last thing
`Do` does, on every exit path: classifier failure, read failure, decode
failure or success, with or without a container. -/
theorem Do_closes_body {σ : Type} (unmarshal : Unmarshal σ) (c : HTTPClient)
    (req : Request) (obj : Option σ) (res : Response)
    (hrt : c.HTTP req = Except.ok res) :
    (HTTPClient.Do unmarshal c req obj).trace.getLast? = some Event.close ∧
      (HTTPClient.Do unmarshal c req obj).trace.count Event.close = 1 := by
  simp only [HTTPClient.Do, hrt, HTTPClient.handleErrors]
  cases h1 : (c.ErrorHandler res).1 with
  | some e => simp
  | none =>
    cases obj with
    | none => simp
    | some o =>
      cases h2 : (ReadAll (c.ErrorHandler res).2).1.2 with
      | some e => simp
      | none => simp

/-- C13 at a concrete call: a 200 response with the body `7` and a container. -/
theorem Do_closes_body_witness :
    (HTTPClient.Do exampleUnmarshalInt
        (exampleClient { StatusCode := 200, Body := { data := "7", fail := none } })
        exampleRequest (some 5)).trace.getLast? = some Event.close :=
  (Do_closes_body exampleUnmarshalInt
    (exampleClient { StatusCode := 200, Body := { data := "7", fail := none } })
    exampleRequest (some 5)
    { StatusCode := 200, Body := { data := "7", fail := none } } rfl).1

/-! ## Derived clients: `HTTPClient.With` -/

/-- What every modifier of a list leaves as it is, the whole list leaves as it
is. -/
theorem foldl_modifiers_keep {α : Type} (g : Memory → α) (nc : Nat)
    (modifiers : List ClientModifierFn) (mem : Memory)
    (h : ∀ m ∈ modifiers, ∀ mm, g (m nc mm) = g mm) :
    g (modifiers.foldl (fun m f => f nc m) mem) = g mem := by
  induction modifiers generalizing mem with
  | nil => rfl
  | cons m ms ih =>
    rw [List.foldl_cons, ih (m nc mem) (fun m1 hm1 => h m1 (List.mem_cons_of_mem _ hm1))]
    exact h m (List.mem_cons_self _ _) mem

/-- What `With` returns on an allocated receiver: the modifiers called in order
on the new pointer, in the memory that holds the copy. -/
theorem With_eq (mem : Memory) (c : Nat) (modifiers : List ClientModifierFn)
    (hc : c < mem.nextClient) :
    HTTPClient.With mem c modifiers =
      some (modifiers.foldl (fun m f => f mem.nextClient m) (mem.withCopyOf c),
        mem.nextClient) := by
  simp only [HTTPClient.With, hc, if_true]
  rfl

/-- A modifier that only assigns fields of the struct it is given writes
nothing but that struct. -/
theorem assignFields_writesOnlyItsStruct (f : HTTPClientStruct → HTTPClientStruct) :
    writesOnlyItsStruct (assignFields f) := by
  intro p mem
  refine ⟨rfl, rfl, fun q hq => ?_⟩
  simp only [assignFields, Memory.writeClient, if_neg hq]

/-- Assigning modifiers called in order on a pointer leave there the struct
obtained by applying their assignments in order. -/
theorem foldl_assignFields (fs : List (HTTPClientStruct → HTTPClientStruct)) (nc : Nat)
    (mem : Memory) :
    ((fs.map assignFields).foldl (fun m f => f nc m) mem).clients nc =
      fs.foldl (fun x f => f x) (mem.clients nc) := by
  induction fs generalizing mem with
  | nil => rfl
  | cons f fs ih =>
    rw [List.map_cons, List.foldl_cons, List.foldl_cons, ih]
    simp [assignFields, Memory.writeClient]

/-- C14 (as stated, refuted): the client at address 0 has the base address
`https://api.upbound.io`; it derives a client with a modifier that writes
another URL through the `BaseURL` pointer of the struct it is given. The new
struct shares that pointer with the receiver, so afterwards the receiver's own
base address is `https://proxy.example`, and a request it builds resolves
against that address. -/
theorem With_receiver_changed_through_shared_pointer :
    Option.map HTTPClient.BaseURL (exampleMemory.client 0) =
      some "https://api.upbound.io" ∧
    Option.map (fun r => Option.map HTTPClient.BaseURL (r.1.client 0))
        (HTTPClient.With exampleMemory 0 [writeThroughBaseURL "https://proxy.example"]) =
      some (some "https://proxy.example") ∧
    Option.map (fun r => Option.map (fun cl => Option.map Request.URL
          (HTTPClient.NewRequest (exampleLib encodeString) cl (some exampleContext)
            "GET" "/v1" "accounts" none).1) (r.1.client 0))
        (HTTPClient.With exampleMemory 0 [writeThroughBaseURL "https://proxy.example"]) =
      some (some (some "https://proxy.example/v1/accounts")) := by
  decide

/-- C14 (amended): `With` returns a pointer to a newly allocated struct,
distinct from the receiver `c`, and calls the modifiers on that pointer only;
it writes nothing else itself. Hence, when every modifier writes nothing but
the struct it is given (as a modifier that assigns fields does, also one that
assigns another base address), `c` and every other client allocated before the
call are unchanged, and so are all URLs and HTTP clients: base address, error
classifier, HTTP client and user-agent of `c` are what they were, and any
request `c` builds afterwards is the request it would have built before. -/
theorem With_leaves_receiver_unchanged (mem : Memory) (c : Nat)
    (modifiers : List ClientModifierFn) (hc : c < mem.nextClient) :
    ∃ mem1 nc, HTTPClient.With mem c modifiers = some (mem1, nc) ∧
      nc ≠ c ∧
      (mem.withCopyOf c).clients c = mem.clients c ∧
      (mem.withCopyOf c).urls = mem.urls ∧
      (mem.withCopyOf c).httpClients = mem.httpClients ∧
      (∀ f, writesOnlyItsStruct (assignFields f)) ∧
      ((∀ m ∈ modifiers, writesOnlyItsStruct m) →
        mem1.clients c = mem.clients c ∧
        mem1.urls = mem.urls ∧ mem1.httpClients = mem.httpClients ∧
        (∀ p, p < mem.nextClient → mem1.clients p = mem.clients p) ∧
        mem1.client c = mem.client c ∧
        ∀ (β : Type) (L : Lib β) (ctx : Option Context) (method pfx urlPath : String)
          (body : Option β) (cl1 cl : HTTPClient),
          mem1.client c = some cl1 → mem.client c = some cl →
          HTTPClient.NewRequest L cl1 ctx method pfx urlPath body =
            HTTPClient.NewRequest L cl ctx method pfx urlPath body) := by
  have hne : ∀ p, p < mem.nextClient → p ≠ mem.nextClient := fun p hp => Nat.ne_of_lt hp
  have hcopy : ∀ p, p < mem.nextClient → (mem.withCopyOf c).clients p = mem.clients p := by
    intro p hp
    simp only [Memory.withCopyOf, Memory.writeClient, if_neg (hne p hp)]
  refine ⟨_, _, With_eq mem c modifiers hc, Nat.ne_of_gt hc, hcopy c hc, rfl, rfl,
    assignFields_writesOnlyItsStruct, fun hlocal => ?_⟩
  have hurls : (modifiers.foldl (fun m f => f mem.nextClient m) (mem.withCopyOf c)).urls =
      mem.urls :=
    foldl_modifiers_keep Memory.urls _ modifiers _ (fun m hm mm => (hlocal m hm _ mm).1)
  have hhttp : (modifiers.foldl (fun m f => f mem.nextClient m)
      (mem.withCopyOf c)).httpClients = mem.httpClients :=
    foldl_modifiers_keep Memory.httpClients _ modifiers _
      (fun m hm mm => (hlocal m hm _ mm).2.1)
  have hold : ∀ p, p < mem.nextClient →
      (modifiers.foldl (fun m f => f mem.nextClient m) (mem.withCopyOf c)).clients p =
        mem.clients p := by
    intro p hp
    rw [foldl_modifiers_keep (fun mm => mm.clients p) _ modifiers _
      (fun m hm mm => (hlocal m hm _ mm).2.2 p (hne p hp))]
    exact hcopy p hp
  have hview : (modifiers.foldl (fun m f => f mem.nextClient m) (mem.withCopyOf c)).client c =
      mem.client c := by
    simp only [Memory.client, hold c hc, hurls, hhttp]
  refine ⟨hold c hc, hurls, hhttp, hold, hview, ?_⟩
  intro β L ctx method pfx urlPath body cl1 cl h1 h2
  rw [hview, h2] at h1
  cases h1
  rfl

/-- C14 (amended) at a concrete call: the client at address 0 derives a client
whose base address is assigned the URL at address 1; afterwards the receiver
still has the base address `https://api.upbound.io` and the derived client has
`https://proxy.example`. -/
theorem With_leaves_receiver_unchanged_witness :
    (∃ mem1 nc, HTTPClient.With exampleMemory 0 [withBaseURL (some 1)] = some (mem1, nc) ∧
      nc ≠ 0 ∧ mem1.client 0 = exampleMemory.client 0) ∧
    Option.map (fun r => (Option.map HTTPClient.BaseURL (r.1.client 0),
        Option.map HTTPClient.BaseURL (r.1.client r.2)))
      (HTTPClient.With exampleMemory 0 [withBaseURL (some 1)]) =
      some (some "https://api.upbound.io", some "https://proxy.example") :=
  have h := With_leaves_receiver_unchanged exampleMemory 0 [withBaseURL (some 1)]
    (by decide)
  ⟨⟨h.choose, h.choose_spec.choose, h.choose_spec.choose_spec.1,
    h.choose_spec.choose_spec.2.1,
    (h.choose_spec.choose_spec.2.2.2.2.2.2
      (fun m hm => by
        rw [List.mem_singleton] at hm
        subst hm
        exact assignFields_writesOnlyItsStruct _)).2.2.2.2.1⟩,
   by decide⟩

/-- C15: `c.With(m1, ..., mn)` returns a pointer to a new struct, and the memory
it leaves is the one obtained by calling `m1`, then `m2`, ..., then `mn` on
that pointer, starting from a field-by-field copy of `c`. Hence with no
modifiers the four fields of the new struct are those of `c`, and so are its
base address, classifier, HTTP client and user-agent; a field that no modifier
changes is that of `c`; a field that a modifier assigns, and that no later
modifier changes, has the assigned value whatever the earlier modifiers did:
the later assignment wins; and when the modifiers only assign fields, the new
struct is the result of applying their assignments in order to the copy. -/
theorem With_applies_modifiers_in_order (mem : Memory) (c : Nat)
    (modifiers : List ClientModifierFn) (hc : c < mem.nextClient) :
    ∃ mem1 nc, HTTPClient.With mem c modifiers = some (mem1, nc) ∧
      nc = mem.nextClient ∧
      mem1 = modifiers.foldl (fun m f => f nc m) (mem.withCopyOf c) ∧
      ((mem.withCopyOf c).clients nc).BaseURL = (mem.clients c).BaseURL ∧
      ((mem.withCopyOf c).clients nc).ErrorHandler = (mem.clients c).ErrorHandler ∧
      ((mem.withCopyOf c).clients nc).HTTP = (mem.clients c).HTTP ∧
      ((mem.withCopyOf c).clients nc).UserAgent = (mem.clients c).UserAgent ∧
      (modifiers = [] →
        (mem1.clients nc).BaseURL = (mem.clients c).BaseURL ∧
        (mem1.clients nc).ErrorHandler = (mem.clients c).ErrorHandler ∧
        (mem1.clients nc).HTTP = (mem.clients c).HTTP ∧
        (mem1.clients nc).UserAgent = (mem.clients c).UserAgent ∧
        mem1.client nc = mem.client c) ∧
      (∀ (α : Type) (f : HTTPClientStruct → α),
        (∀ m ∈ modifiers, ∀ mm, f ((m nc mm).clients nc) = f (mm.clients nc)) →
        f (mem1.clients nc) = f (mem.clients c)) ∧
      (∀ (α : Type) (f : HTTPClientStruct → α) (v : α) (pre post : List ClientModifierFn)
        (m : ClientModifierFn),
        modifiers = pre ++ m :: post → (∀ mm, f ((m nc mm).clients nc) = v) →
        (∀ m1 ∈ post, ∀ mm, f ((m1 nc mm).clients nc) = f (mm.clients nc)) →
        f (mem1.clients nc) = v) ∧
      (∀ fs : List (HTTPClientStruct → HTTPClientStruct), modifiers = fs.map assignFields →
        mem1.clients nc = fs.foldl (fun x f => f x)
          { BaseURL := (mem.clients c).BaseURL, ErrorHandler := (mem.clients c).ErrorHandler,
            HTTP := (mem.clients c).HTTP, UserAgent := (mem.clients c).UserAgent }) := by
  have hnew : (mem.withCopyOf c).clients mem.nextClient =
      { BaseURL := (mem.clients c).BaseURL, ErrorHandler := (mem.clients c).ErrorHandler,
        HTTP := (mem.clients c).HTTP, UserAgent := (mem.clients c).UserAgent } := by
    simp [Memory.withCopyOf, Memory.writeClient]
  refine ⟨_, _, With_eq mem c modifiers hc, rfl, rfl, ?_, ?_, ?_, ?_, ?_, ?_, ?_, ?_⟩
  · rw [hnew]
  · rw [hnew]
  · rw [hnew]
  · rw [hnew]
  · intro hnil
    subst hnil
    simp only [List.foldl_nil, hnew, Memory.client, true_and]
    rfl
  · intro α f hf
    rw [foldl_modifiers_keep (fun mm => f (mm.clients mem.nextClient)) _ modifiers _ hf, hnew]
  · intro α f v pre post m hsplit hm hpost
    subst hsplit
    rw [List.foldl_append, List.foldl_cons,
      foldl_modifiers_keep (fun mm => f (mm.clients mem.nextClient)) _ post _ hpost]
    exact hm _
  · intro fs hfs
    subst hfs
    rw [foldl_assignFields, hnew]

/-- The struct that an assigning modifier leaves at the pointer it is given. -/
theorem assignFields_clients (f : HTTPClientStruct → HTTPClientStruct) (p : Nat)
    (mem : Memory) : ((assignFields f) p mem).clients p = f (mem.clients p) := by
  simp [assignFields, Memory.writeClient]

/-- C15 at a concrete call: two modifiers assign the user-agent and one the
base address; the derived client has the later user-agent and the new base
address, and the HTTP client of the receiver. -/
theorem With_applies_modifiers_in_order_witness :
    (∃ mem1 nc,
      HTTPClient.With exampleMemory 0
        [withUserAgent "first", withBaseURL (some 1), withUserAgent "second"] =
          some (mem1, nc) ∧
      (mem1.clients nc).UserAgent = "second" ∧
      (mem1.clients nc).BaseURL = some 1 ∧
      (mem1.clients nc).HTTP = (exampleMemory.clients 0).HTTP) ∧
    Option.map (fun r => (Option.map HTTPClient.UserAgent (r.1.client 0),
        Option.map HTTPClient.UserAgent (r.1.client r.2),
        Option.map HTTPClient.BaseURL (r.1.client r.2)))
      (HTTPClient.With exampleMemory 0
        [withUserAgent "first", withBaseURL (some 1), withUserAgent "second"]) =
      some (some "up-sdk-go", some "second", some "https://proxy.example") := by
  obtain ⟨mem1, nc, hwith, _, _, _, _, _, _, _, hkeep, hlast, _⟩ :=
    With_applies_modifiers_in_order exampleMemory 0
      [withUserAgent "first", withBaseURL (some 1), withUserAgent "second"] (by decide)
  refine ⟨⟨mem1, nc, hwith, ?_, ?_, ?_⟩, by decide⟩
  · refine hlast String HTTPClientStruct.UserAgent "second"
      [withUserAgent "first", withBaseURL (some 1)] [] (withUserAgent "second") rfl
      (fun mm => ?_) (fun _ hm => absurd hm (List.not_mem_nil _))
    rw [withUserAgent, assignFields_clients]
  · refine hlast Ptr HTTPClientStruct.BaseURL (some 1)
      [withUserAgent "first"] [withUserAgent "second"] (withBaseURL (some 1)) rfl
      (fun mm => ?_) (fun m1 hm mm => ?_)
    · rw [withBaseURL, assignFields_clients]
    · rw [List.mem_singleton] at hm
      subst hm
      rw [withUserAgent, assignFields_clients]
  · refine hkeep Ptr HTTPClientStruct.HTTP (fun m1 hm mm => ?_)
    simp only [List.mem_cons, List.mem_singleton, List.mem_nil_iff, or_false] at hm
    rcases hm with h1 | h1 | h1 <;> subst h1
    · rw [withUserAgent, assignFields_clients]
    · rw [withBaseURL, assignFields_clients]
    · rw [withUserAgent, assignFields_clients]

/-! ## Building requests: `HTTPClient.NewRequest` -/

/-- The request that `http.NewRequestWithContext` returns when it succeeds. -/
theorem NewRequestWithContext_ok (urlParse : String → Except GoError String)
    (ctx : Option Context) (method url : String) (body : Option String) (req : Request)
    (h : NewRequestWithContext urlParse ctx method url body = Except.ok req) :
    ∃ ctx1 u, ctx = some ctx1 ∧ urlParse url = Except.ok u ∧
      validMethod (if method = "" then "GET" else method) = true ∧
      req = { Method := if method = "" then "GET" else method, URL := u, Header := [],
              Body := body, ctx := ctx1 } := by
  unfold NewRequestWithContext at h
  simp only [] at h
  generalize (if method = "" then "GET" else method) = m at h ⊢
  by_cases hv : validMethod m = true
  · rw [if_neg (not_not_intro hv)] at h
    cases ctx with
    | none => cases h
    | some ctx1 =>
      simp only [] at h
      cases hu : urlParse url with
      | error e => rw [hu] at h; cases h
      | ok u =>
        rw [hu] at h
        simp only [Except.ok.injEq] at h
        exact ⟨ctx1, u, rfl, rfl, hv, h.symm⟩
  · rw [if_pos hv] at h
    cases h

/-- The request of a successful `NewRequest` call, field by field. -/
theorem NewRequest_success {β : Type} (L : Lib β) (c : HTTPClient) (ctx : Option Context)
    (method pfx urlPath : String) (body : Option β) (req : Request)
    (h : HTTPClient.NewRequest L c ctx method pfx urlPath body = (some req, none)) :
    ∃ u u1 ctx1 buf,
      L.urlResolve c.BaseURL (L.pathJoin pfx urlPath) = Except.ok u ∧
      L.urlParse u = Except.ok u1 ∧ ctx = some ctx1 ∧
      (body = none → buf = none) ∧
      (∀ b, body = some b → ∃ bytes, L.encode false b = Except.ok bytes ∧ buf = some bytes) ∧
      req = { Method := if method = "" then "GET" else method, URL := u1,
              Header :=
                if body.isSome then
                  [("Content-Type", ["application/json"]), ("User-Agent", [c.UserAgent])]
                else [("User-Agent", [c.UserAgent])],
              Body := buf, ctx := ctx1 } := by
  unfold HTTPClient.NewRequest at h
  cases hres : L.urlResolve c.BaseURL (L.pathJoin pfx urlPath) with
  | error e => rw [hres] at h; cases h
  | ok u =>
    rw [hres] at h
    cases body with
    | none =>
      simp only [] at h
      cases hn : NewRequestWithContext L.urlParse ctx method u none with
      | error e => rw [hn] at h; cases h
      | ok r =>
        rw [hn] at h
        obtain ⟨ctx1, u1, hctx, hu, _, hr⟩ := NewRequestWithContext_ok _ _ _ _ _ _ hn
        subst hr
        simp only [Option.isSome_none, Bool.false_eq_true, if_false, Prod.mk.injEq,
          Option.some.injEq, and_true] at h
        refine ⟨u, u1, ctx1, none, rfl, hu, hctx, fun _ => rfl, fun b hb => (by cases hb), ?_⟩
        rw [← h]
        simp [Header.Set]
    | some b =>
      simp only [] at h
      cases henc : L.encode false b with
      | error e => rw [henc] at h; cases h
      | ok bytes =>
        rw [henc] at h
        simp only [] at h
        cases hn : NewRequestWithContext L.urlParse ctx method u (some bytes) with
        | error e => rw [hn] at h; cases h
        | ok r =>
          rw [hn] at h
          obtain ⟨ctx1, u1, hctx, hu, _, hr⟩ := NewRequestWithContext_ok _ _ _ _ _ _ hn
          subst hr
          simp only [Option.isSome_some, if_true, Prod.mk.injEq,
            Option.some.injEq, and_true] at h
          refine ⟨u, u1, ctx1, some bytes, rfl, hu, hctx, fun hb => (by cases hb),
            fun b1 hb => ?_, ?_⟩
          · cases hb
            exact ⟨bytes, henc, rfl⟩
          · rw [← h]
            simp [Header.Set]

/-- C16: on every successful `NewRequest` call the `User-Agent` header of the
request is the user-agent of the client, as its only value; `Content-Type` is
`application/json`, as its only value, when the body argument is non-nil, and
is not set at all when the body argument is nil. -/
theorem NewRequest_headers {β : Type} (L : Lib β) (c : HTTPClient) (ctx : Option Context)
    (method pfx urlPath : String) (body : Option β) (req : Request)
    (h : HTTPClient.NewRequest L c ctx method pfx urlPath body = (some req, none)) :
    Header.Get req.Header "User-Agent" = c.UserAgent ∧
      Header.Values req.Header "User-Agent" = [c.UserAgent] ∧
      (body.isSome = true →
        Header.Get req.Header "Content-Type" = "application/json" ∧
        Header.Values req.Header "Content-Type" = ["application/json"]) ∧
      (body = none → Header.Has req.Header "Content-Type" = false) := by
  obtain ⟨u, u1, ctx1, buf, _, _, _, _, _, hreq⟩ :=
    NewRequest_success L c ctx method pfx urlPath body req h
  subst hreq
  cases body with
  | none => simp [Header.Get, Header.Values, Header.Has, List.lookup]
  | some b => simp [Header.Get, Header.Values, Header.Has, List.lookup]

/-- C16 at a concrete call: a `POST` with the string body `<a&b>`. -/
theorem NewRequest_headers_witness :
    Option.map Request.Header
      (HTTPClient.NewRequest (exampleLib encodeString) exampleBaseClient (some exampleContext)
        "POST" "/v1" "accounts" (some "<a&b>")).1 =
      some [("Content-Type", ["application/json"]), ("User-Agent", ["up-sdk-go"])] ∧
    Header.Get [("Content-Type", ["application/json"]), ("User-Agent", ["up-sdk-go"])]
      "User-Agent" = "up-sdk-go" :=
  ⟨by decide,
   (NewRequest_headers (exampleLib encodeString) exampleBaseClient (some exampleContext)
      "POST" "/v1" "accounts" (some "<a&b>")
      { Method := "POST", URL := "https://api.upbound.io/v1/accounts",
        Header := [("Content-Type", ["application/json"]), ("User-Agent", ["up-sdk-go"])],
        Body := some "\"<a&b>\"\n", ctx := exampleContext }
      (by decide)).1⟩

/-- C17 (as stated, refuted): called with the empty method, `NewRequest`
succeeds and the method of the request is `GET`, not the given (empty)
method. -/
theorem NewRequest_empty_method_becomes_GET :
    HTTPClient.NewRequest (exampleLib encodeString) exampleBaseClient (some exampleContext)
        "" "/v1" "accounts" none =
      (some { Method := "GET", URL := "https://api.upbound.io/v1/accounts",
              Header := [("User-Agent", ["up-sdk-go"])], Body := none,
              ctx := exampleContext }, none) := by
  decide

/-- C17 (amended): on every successful `NewRequest` call the method of the
request is the given method, or `GET` when the given method is empty, and its
URL is the one `http.NewRequestWithContext` parses from the text of `u`, where
`u` is `path.Join(prefix, path)` resolved as a reference against the base
address of the client; and when that reference does not parse, `NewRequest`
returns the parse error and no request. -/
theorem NewRequest_method_and_URL {β : Type} (L : Lib β) (c : HTTPClient)
    (ctx : Option Context) (method pfx urlPath : String) (body : Option β) :
    (∀ req, HTTPClient.NewRequest L c ctx method pfx urlPath body = (some req, none) →
        req.Method = (if method = "" then "GET" else method) ∧
        (method ≠ "" → req.Method = method) ∧
        ∃ u, L.urlResolve c.BaseURL (L.pathJoin pfx urlPath) = Except.ok u ∧
          L.urlParse u = Except.ok req.URL) ∧
      (∀ e, L.urlResolve c.BaseURL (L.pathJoin pfx urlPath) = Except.error e →
        HTTPClient.NewRequest L c ctx method pfx urlPath body = (none, some e)) := by
  refine ⟨fun req h => ?_, fun e he => ?_⟩
  · obtain ⟨u, u1, ctx1, buf, hres, hparse, _, _, _, hreq⟩ :=
      NewRequest_success L c ctx method pfx urlPath body req h
    subst hreq
    exact ⟨rfl, fun hne => if_neg hne, u, hres, hparse⟩
  · simp only [HTTPClient.NewRequest, he]

/-- C17 (amended) at concrete calls: a `GET` of `accounts` under `/v1`, and a
path whose escape is malformed. -/
theorem NewRequest_method_and_URL_witness :
    Option.map Request.URL
      (HTTPClient.NewRequest (exampleLib encodeString) exampleBaseClient (some exampleContext)
        "GET" "/v1" "accounts" none).1 = some "https://api.upbound.io/v1/accounts" ∧
    HTTPClient.NewRequest (exampleLib encodeString) exampleBaseClient (some exampleContext)
        "GET" "/v1" "%zz" none =
      (none, some (GoError.other "parse \"/v1/%zz\": invalid URL escape \"%zz\"")) :=
  ⟨by decide,
   (NewRequest_method_and_URL (exampleLib encodeString) exampleBaseClient
      (some exampleContext) "GET" "/v1" "%zz" none).2
      (GoError.other "parse \"/v1/%zz\": invalid URL escape \"%zz\"") rfl⟩

/-- C18 (as stated, refuted): the `Pipeline` whose `Metrics` is the empty,
non-nil slice is sent as the document `{}`, and decoding that document gives
the `Pipeline` whose `Metrics` is nil: the body is not reproduced exactly. -/
theorem NewRequest_body_not_reproduced :
    Option.map Request.Body
      (HTTPClient.NewRequest (exampleLib encodePipeline) exampleBaseClient
        (some exampleContext) "POST" "/v1" "pipelines"
        (some { Metrics := some [], Traces := none, Logs := none })).1 =
      some (some "\x7b\x7d\n") ∧
    exampleDecodePipeline "\x7b\x7d\n" =
      some { Metrics := none, Traces := none, Logs := none } ∧
    exampleDecodePipeline "\x7b\x7d\n" ≠
      some { Metrics := some [], Traces := none, Logs := none } := by
  decide

/-- C18 (amended): for every non-nil body `b` with which `NewRequest` succeeds,
the body of the request is exactly the bytes that the JSON encoder wrote for
`b`; hence decoding it reproduces `b` whenever the decoder inverts the encoder
on `b`. -/
theorem NewRequest_body_round_trip {β : Type} (L : Lib β) (decode : String → Option β)
    (c : HTTPClient) (ctx : Option Context) (method pfx urlPath : String) (b : β)
    (req : Request)
    (h : HTTPClient.NewRequest L c ctx method pfx urlPath (some b) = (some req, none))
    (hcodec : ∀ bytes, L.encode false b = Except.ok bytes → decode bytes = some b) :
    ∃ bytes, L.encode false b = Except.ok bytes ∧ req.Body = some bytes ∧
      decode bytes = some b := by
  obtain ⟨u, u1, ctx1, buf, _, _, _, _, hbody, hreq⟩ :=
    NewRequest_success L c ctx method pfx urlPath (some b) req h
  obtain ⟨bytes, henc, hbuf⟩ := hbody b rfl
  subst hreq
  exact ⟨bytes, henc, hbuf, hcodec bytes henc⟩

/-- C18 (amended) at a concrete call: the `Pipeline` whose `Metrics` is
`["cpu"]` is sent as `{"metrics":["cpu"]}` and decodes back to itself. -/
theorem NewRequest_body_round_trip_witness :
    ∃ bytes,
      encodePipeline false { Metrics := some ["cpu"], Traces := none, Logs := none } =
        Except.ok bytes ∧
      some "\x7b\"metrics\":[\"cpu\"]\x7d\n" = some bytes ∧
      exampleDecodePipeline bytes =
        some { Metrics := some ["cpu"], Traces := none, Logs := none } :=
  NewRequest_body_round_trip (exampleLib encodePipeline) exampleDecodePipeline
    exampleBaseClient (some exampleContext) "POST" "/v1" "pipelines"
    { Metrics := some ["cpu"], Traces := none, Logs := none }
    { Method := "POST", URL := "https://api.upbound.io/v1/pipelines",
      Header := [("Content-Type", ["application/json"]), ("User-Agent", ["up-sdk-go"])],
      Body := some "\x7b\"metrics\":[\"cpu\"]\x7d\n", ctx := exampleContext }
    (by decide)
    (fun bytes hb => by
      have hb2 : "\x7b\"metrics\":[\"cpu\"]\x7d\n" = bytes := by
        simpa [exampleLib, encodePipeline] using hb
      subst hb2
      decide)

/-- C19 (as stated, refuted): a `common.JSON` whose `Object` is the string
`<a&b>` is sent as `"\u003ca\u0026b\u003e"`: its `MarshalJSON` escapes the
three characters, and the encoder of `NewRequest` copies what it returns. -/
theorem NewRequest_marshaler_body_is_escaped :
    Option.map Request.Body
      (HTTPClient.NewRequest (exampleLib encodeJSON) exampleBaseClient
        (some exampleContext) "POST" "/v1" "accounts" (some { Object := "<a&b>" })).1 =
      some (some "\"\\u003ca\\u0026b\\u003e\"\n") := by
  decide

/-- C19 (amended): for every non-nil body with which `NewRequest` succeeds, the
body of the request is exactly what the JSON encoder writes for it with HTML
escaping disabled (`SetEscapeHTML(false)`) and nothing else. -/
theorem NewRequest_body_encoded_without_escaping {β : Type} (L : Lib β) (c : HTTPClient)
    (ctx : Option Context) (method pfx urlPath : String) (b : β) (req : Request)
    (h : HTTPClient.NewRequest L c ctx method pfx urlPath (some b) = (some req, none)) :
    ∃ bytes, L.encode false b = Except.ok bytes ∧ req.Body = some bytes := by
  obtain ⟨u, u1, ctx1, buf, _, _, _, _, hbody, hreq⟩ :=
    NewRequest_success L c ctx method pfx urlPath (some b) req h
  obtain ⟨bytes, henc, hbuf⟩ := hbody b rfl
  subst hreq
  exact ⟨bytes, henc, hbuf⟩

/-- C19 (amended) at a concrete call: the Go string `<a&b>` is sent as
`"<a&b>"`, the three characters written literally. -/
theorem NewRequest_body_encoded_without_escaping_witness :
    ∃ bytes, encodeString false "<a&b>" = Except.ok bytes ∧
      some "\"<a&b>\"\n" = some bytes :=
  NewRequest_body_encoded_without_escaping (exampleLib encodeString) exampleBaseClient
    (some exampleContext) "POST" "/v1" "accounts" "<a&b>"
    { Method := "POST", URL := "https://api.upbound.io/v1/accounts",
      Header := [("Content-Type", ["application/json"]), ("User-Agent", ["up-sdk-go"])],
      Body := some "\"<a&b>\"\n", ctx := exampleContext }
    (by decide)

/-- C20: every `NewRequest` call returns either a request and the nil error,
or no request and a non-nil error, never both and never neither; it returns
the parse error and no request when the joined path does not parse as a URL
reference, and the encoder's error and no request when a non-nil body cannot
be serialized. -/
theorem NewRequest_request_xor_error {β : Type} (L : Lib β) (c : HTTPClient)
    (ctx : Option Context) (method pfx urlPath : String) (body : Option β) :
    ((∃ req, HTTPClient.NewRequest L c ctx method pfx urlPath body = (some req, none)) ∨
      (∃ e, HTTPClient.NewRequest L c ctx method pfx urlPath body = (none, some e))) ∧
      (∀ e, L.urlResolve c.BaseURL (L.pathJoin pfx urlPath) = Except.error e →
        HTTPClient.NewRequest L c ctx method pfx urlPath body = (none, some e)) ∧
      (∀ u b e, L.urlResolve c.BaseURL (L.pathJoin pfx urlPath) = Except.ok u →
        body = some b → L.encode false b = Except.error e →
        HTTPClient.NewRequest L c ctx method pfx urlPath body = (none, some e)) := by
  refine ⟨?_, fun e he => ?_, fun u b e hu hb he => ?_⟩
  · unfold HTTPClient.NewRequest
    cases L.urlResolve c.BaseURL (L.pathJoin pfx urlPath) with
    | error e => exact Or.inr ⟨e, rfl⟩
    | ok u =>
      cases body with
      | none =>
        simp only []
        cases NewRequestWithContext L.urlParse ctx method u none with
        | error e => exact Or.inr ⟨e, rfl⟩
        | ok r => exact Or.inl ⟨_, rfl⟩
      | some b =>
        simp only []
        cases L.encode false b with
        | error e => exact Or.inr ⟨e, rfl⟩
        | ok bytes =>
          simp only []
          cases NewRequestWithContext L.urlParse ctx method u (some bytes) with
          | error e => exact Or.inr ⟨e, rfl⟩
          | ok r => exact Or.inl ⟨_, rfl⟩
  · simp only [HTTPClient.NewRequest, he]
  · subst hb
    simp only [HTTPClient.NewRequest, hu, he]

/-! ## The transport decorator: `ContextTransport.RoundTrip` -/

/-- Removing the entries of another key does not change what a key looks up. -/
theorem lookup_filter_ne (h : Header) (key other : String) (hne : other ≠ key) :
    (h.filter (fun kv => kv.1 ≠ key)).lookup other = h.lookup other := by
  induction h with
  | nil => rfl
  | cons kv rest ih =>
    obtain ⟨k, vs⟩ := kv
    by_cases hk : k = key
    · subst hk
      have hb : (other == k) = false := by simpa using hne
      simp only [List.filter, ne_eq, not_true_eq_false, decide_False, List.lookup, hb]
      exact ih
    · have hdec : decide ((k, vs).1 ≠ key) = true := by simpa using hk
      simp only [List.filter, hdec, List.lookup]
      cases other == k with
      | true => rfl
      | false => exact ih

/-- After `Add`, the key has its earlier values followed by the new one. -/
theorem Header.Values_Add_self (h : Header) (key value : String) :
    Header.Values (Header.Add h key value) key = Header.Values h key ++ [value] := by
  simp [Header.Values, Header.Add, List.lookup]

/-- `Add` leaves the values of every other key as they are. -/
theorem Header.Values_Add_ne (h : Header) (key value other : String) (hne : other ≠ key) :
    Header.Values (Header.Add h key value) other = Header.Values h other := by
  have hb : (other == key) = false := by simpa using hne
  simp only [Header.Values, Header.Add, List.lookup, hb, lookup_filter_ne h key other hne]

/-- `Add` leaves every other key set or unset as it was. -/
theorem Header.Has_Add_ne (h : Header) (key value other : String) (hne : other ≠ key) :
    Header.Has (Header.Add h key value) other = Header.Has h other := by
  have hb : (other == key) = false := by simpa using hne
  simp only [Header.Has, Header.Add, List.lookup, hb, lookup_filter_ne h key other hne]

/-- What `RoundTrip` returns, in terms of the identifier it adds. -/
theorem RoundTrip_eq (requestIDHeader newID : String) (c : ContextTransport) (req : Request) :
    ContextTransport.RoundTrip requestIDHeader newID c req =
      { res := (c.transport (req.addRequestID requestIDHeader (roundTripID newID req))).1,
        err := (c.transport (req.addRequestID requestIDHeader (roundTripID newID req))).2,
        sent := [req.addRequestID requestIDHeader (roundTripID newID req)],
        req := req.addRequestID requestIDHeader (roundTripID newID req) } := by
  rfl

/-- C21: `RoundTrip` hands the delegate transport the request with an
identifier added to the correlation-identifier header, after the values the
header already had: the identifier of the request's context when that one is
not empty, and the newly generated identifier when the context carries none or
an empty one. The delegate is called on the request that already has the
header, and what it answers is what `RoundTrip` returns. -/
theorem RoundTrip_adds_request_id (requestIDHeader newID : String) (c : ContextTransport)
    (req : Request) :
    ∃ sentReq, (ContextTransport.RoundTrip requestIDHeader newID c req).sent = [sentReq] ∧
      Header.Values sentReq.Header requestIDHeader =
        Header.Values req.Header requestIDHeader ++ [roundTripID newID req] ∧
      ((ContextTransport.RoundTrip requestIDHeader newID c req).res,
        (ContextTransport.RoundTrip requestIDHeader newID c req).err) = c.transport sentReq ∧
      (∀ id, req.ctx.requestID = some id → id ≠ "" → roundTripID newID req = id) ∧
      (req.ctx.requestID = none ∨ req.ctx.requestID = some "" →
        roundTripID newID req = newID) := by
  rw [RoundTrip_eq]
  refine ⟨_, rfl, Header.Values_Add_self _ _ _, rfl, ?_, ?_⟩
  · intro id hid hne
    simp [roundTripID, IDFromContext, hid, hne]
  · intro hnone
    rcases hnone with h | h <;> simp [roundTripID, IDFromContext, h]

/-- C21 at concrete calls: a request whose context carries `req-1`, and one
whose context carries no identifier, for which `generated-1` is generated. -/
theorem RoundTrip_adds_request_id_witness :
    roundTripID "generated-1" exampleRequest = "req-1" ∧
    roundTripID "generated-1" exampleRequestWithoutID = "generated-1" ∧
    List.map (fun r => Header.Values r.Header "X-Request-Id")
      (ContextTransport.RoundTrip "X-Request-Id" "generated-1"
        (exampleFailingTransport (GoError.other "connection refused"))
        exampleRequestWithoutID).sent = [["generated-1"]] :=
  ⟨(RoundTrip_adds_request_id "X-Request-Id" "generated-1"
      (exampleFailingTransport (GoError.other "connection refused"))
      exampleRequest).choose_spec.2.2.2.1 "req-1" rfl (by decide),
   (RoundTrip_adds_request_id "X-Request-Id" "generated-1"
      (exampleFailingTransport (GoError.other "connection refused"))
      exampleRequestWithoutID).choose_spec.2.2.2.2 (Or.inl rfl),
   by decide⟩

/-- C22 (as stated, refuted): a request that already has the value `abc` in
the correlation-identifier header reaches the delegate transport with two
values in that header, `abc` and the identifier `req-1` of its context. -/
theorem RoundTrip_header_may_hold_two_values :
    List.map (fun r => Header.Values r.Header "X-Request-Id")
      (ContextTransport.RoundTrip "X-Request-Id" "generated-1"
        (exampleFailingTransport (GoError.other "connection refused"))
        exampleRequestWithHeader).sent = [["abc", "req-1"]] := by
  decide

/-- C22 (amended): the request handed to the delegate transport carries, in
the correlation-identifier header, the values the request had there before the
dispatch followed by the one identifier that `RoundTrip` adds: one value more
than before, and exactly one value when the request had none. -/
theorem RoundTrip_appends_one_value (requestIDHeader newID : String) (c : ContextTransport)
    (req : Request) :
    ∃ sentReq, (ContextTransport.RoundTrip requestIDHeader newID c req).sent = [sentReq] ∧
      Header.Values sentReq.Header requestIDHeader =
        Header.Values req.Header requestIDHeader ++ [roundTripID newID req] ∧
      (Header.Values sentReq.Header requestIDHeader).length =
        (Header.Values req.Header requestIDHeader).length + 1 ∧
      (Header.Values req.Header requestIDHeader = [] →
        Header.Values sentReq.Header requestIDHeader = [roundTripID newID req]) := by
  rw [RoundTrip_eq]
  have hv : Header.Values (req.addRequestID requestIDHeader (roundTripID newID req)).Header
      requestIDHeader = Header.Values req.Header requestIDHeader ++ [roundTripID newID req] :=
    Header.Values_Add_self _ _ _
  refine ⟨_, rfl, hv, ?_, ?_⟩
  · rw [hv, List.length_append, List.length_singleton]
  · intro hnil
    rw [hv, hnil, List.nil_append]

/-- C22 (amended) at a concrete call: a request without the header reaches the
delegate with the single value `req-1`. -/
theorem RoundTrip_appends_one_value_witness :
    ∃ sentReq,
      (ContextTransport.RoundTrip "X-Request-Id" "generated-1"
        (exampleFailingTransport (GoError.other "connection refused"))
        exampleRequest).sent = [sentReq] ∧
      Header.Values sentReq.Header "X-Request-Id" = ["req-1"] :=
  have h := RoundTrip_appends_one_value "X-Request-Id" "generated-1"
    (exampleFailingTransport (GoError.other "connection refused")) exampleRequest
  ⟨h.choose, h.choose_spec.1, h.choose_spec.2.2.2 rfl⟩

/-- C23: `RoundTrip` calls the delegate transport exactly once and returns its
response and its error as they are; the request that the delegate receives has
the method, URL, body and context of the request `RoundTrip` was called with,
and every header other than the correlation-identifier header is set or unset
as before, with the same values. -/
theorem RoundTrip_passes_through (requestIDHeader newID : String) (c : ContextTransport)
    (req : Request) :
    ∃ sentReq, (ContextTransport.RoundTrip requestIDHeader newID c req).sent = [sentReq] ∧
      (ContextTransport.RoundTrip requestIDHeader newID c req).res =
        (c.transport sentReq).1 ∧
      (ContextTransport.RoundTrip requestIDHeader newID c req).err =
        (c.transport sentReq).2 ∧
      sentReq.Method = req.Method ∧ sentReq.URL = req.URL ∧ sentReq.Body = req.Body ∧
      sentReq.ctx = req.ctx ∧
      (∀ key, key ≠ requestIDHeader →
        Header.Values sentReq.Header key = Header.Values req.Header key ∧
        Header.Has sentReq.Header key = Header.Has req.Header key) := by
  rw [RoundTrip_eq]
  exact ⟨_, rfl, rfl, rfl, rfl, rfl, rfl, rfl, fun key hne =>
    ⟨Header.Values_Add_ne _ _ _ _ hne, Header.Has_Add_ne _ _ _ _ hne⟩⟩

/-- C23 at a concrete call: the delegate answers with a 204 response, which
`RoundTrip` returns, and receives the method `GET`. -/
theorem RoundTrip_passes_through_witness :
    ∃ sentReq,
      (ContextTransport.RoundTrip "X-Request-Id" "generated-1"
        (exampleTransport { StatusCode := 204, Body := { data := "", fail := none } })
        exampleRequestWithHeader).sent = [sentReq] ∧
      (ContextTransport.RoundTrip "X-Request-Id" "generated-1"
        (exampleTransport { StatusCode := 204, Body := { data := "", fail := none } })
        exampleRequestWithHeader).res =
          some { StatusCode := 204, Body := { data := "", fail := none } } ∧
      sentReq.Method = "GET" :=
  have h := RoundTrip_passes_through "X-Request-Id" "generated-1"
    (exampleTransport { StatusCode := 204, Body := { data := "", fail := none } })
    exampleRequestWithHeader
  ⟨h.choose, h.choose_spec.1, h.choose_spec.2.1, h.choose_spec.2.2.2.1⟩

/-- When the context of the request carries a non-empty identifier, the
identifier in the error that `Do` returns for a failed round trip is the one
that `RoundTrip` added to the header. -/
theorem Do_error_id_of_context (requestIDHeader newID : String) (req : Request) (id : String)
    (hid : req.ctx.requestID = some id) (hne : id ≠ "") :
    IDFromContext req.ctx = id ∧ roundTripID newID req = id ∧
      Header.Values (req.addRequestID requestIDHeader (roundTripID newID req)).Header
          requestIDHeader =
        Header.Values req.Header requestIDHeader ++ [id] := by
  have h1 : IDFromContext req.ctx = id := by simp [IDFromContext, hid]
  have h2 : roundTripID newID req = id := by simp [roundTripID, h1, hne]
  refine ⟨h1, h2, ?_⟩
  rw [h2]
  exact Header.Values_Add_self _ _ _

/-- C24 (the code at the failing input): a request whose context carries no
identifier is sent through a client whose transport is the decorator, and the
delegate transport fails. The request reaches the delegate with the generated
identifier `generated-1` in the correlation-identifier header, while the error
that `Do` returns is wrapped with the empty identifier. -/
theorem Do_error_id_differs_from_header_id :
    List.map (fun r => Header.Values r.Header "X-Request-Id")
      (ContextTransport.RoundTrip "X-Request-Id" "generated-1"
        (exampleFailingTransport (GoError.other "connection refused"))
        exampleRequestWithoutID).sent = [["generated-1"]] ∧
    (HTTPClient.Do exampleUnmarshalInt
        (exampleDecoratedClient (exampleFailingTransport (GoError.other "connection refused")))
        exampleRequestWithoutID none).err =
      some (GoError.wrapped (GoError.other "connection refused")
        "failed to perform request with ID: ") := by
  decide

/-! ## Deep copies of `common.JSON` and `common.JSONObject` -/

mutual
/-- `DeepCopyJSONValue` returns a value equal to its argument when that one is
built from supported types, and panics otherwise. -/
theorem DeepCopyJSONValue_eq : ∀ v : JSONValue,
    DeepCopyJSONValue v = if v.supported = true then some v else none
  | JSONValue.null => rfl
  | JSONValue.bool _ => rfl
  | JSONValue.int64 _ => rfl
  | JSONValue.float64 _ => rfl
  | JSONValue.number _ => rfl
  | JSONValue.string _ => rfl
  | JSONValue.nilArray => rfl
  | JSONValue.array items => by
    rw [DeepCopyJSONValue, deepCopyItems_eq items, JSONValue.supported]
    cases items.supported <;> rfl
  | JSONValue.nilObject => rfl
  | JSONValue.object fields => by
    rw [DeepCopyJSONValue, deepCopyFields_eq fields, JSONValue.supported]
    cases fields.supported <;> rfl
  | JSONValue.other _ => rfl
/-- The same for the elements of a slice. -/
theorem deepCopyItems_eq : ∀ items : JSONValues,
    deepCopyItems items = if items.supported = true then some items else none
  | JSONValues.nil => rfl
  | JSONValues.cons head tail => by
    rw [deepCopyItems, DeepCopyJSONValue_eq head, deepCopyItems_eq tail, JSONValues.supported]
    cases head.supported <;> cases tail.supported <;> rfl
/-- The same for the entries of a map. -/
theorem deepCopyFields_eq : ∀ fields : JSONFields,
    deepCopyFields fields = if fields.supported = true then some fields else none
  | JSONFields.nil => rfl
  | JSONFields.cons key value tail => by
    rw [deepCopyFields, DeepCopyJSONValue_eq value, deepCopyFields_eq tail,
      JSONFields.supported]
    cases value.supported <;> cases tail.supported <;> rfl
end

/-- C25 (as stated, refuted): `DeepCopy` of a `JSON` whose `Object` holds an
`int`, and of a `JSONObject` whose map has an `int` under the key `n`, does
not return: `runtime.DeepCopyJSONValue` panics on the type `int`. -/
theorem DeepCopy_panics_on_unsupported_type :
    JSON.DeepCopy (some { Object := JSONValue.other "int" }) = none ∧
    JSONObject.DeepCopy
      (some { Object := some (JSONFields.cons "n" (JSONValue.other "int") JSONFields.nil) }) =
      none := by
  constructor <;> rfl

/-- C25 (amended): `DeepCopy` of a nil `*JSON` or `*JSONObject` is nil. For a
`JSON` or `JSONObject` whose `Object` is built only from the supported types
(nil, `bool`, `int64`, `float64`, `json.Number`, `string`, `[]interface{}` and
`map[string]interface{}`), `DeepCopy` returns a pointer to a value whose
`Object` is equal to the receiver's; for a `JSONObject` this includes the nil
map, and the conversion back to a map does not fail. -/
theorem DeepCopy_of_supported :
    JSON.DeepCopy none = some none ∧
      JSONObject.DeepCopy none = some none ∧
      (∀ j : JSON JSONValue, j.Object.supported = true →
        JSON.DeepCopy (some j) = some (some { Object := j.Object })) ∧
      JSONObject.DeepCopy (some { Object := none }) = some (some { Object := none }) ∧
      (∀ fields : JSONFields, fields.supported = true →
        JSONObject.DeepCopy (some { Object := some fields }) =
          some (some { Object := some fields }) ∧
        ∀ target : JSONObject,
          JSONObject.DeepCopyInto (some { Object := some fields }) (some target) =
            some (some { Object := some fields })) := by
  refine ⟨rfl, rfl, fun j hj => ?_, rfl, fun fields hf => ?_⟩
  · simp only [JSON.DeepCopy, DeepCopyJSONValue_eq, hj, if_true]
  · have hv : (JSONValue.object fields).supported = true := by
      rw [JSONValue.supported]
      exact hf
    constructor
    · simp only [JSONObject.DeepCopy, mapToInterface, DeepCopyJSONValue_eq, hv, if_true,
        assertMap]
    · intro target
      simp only [JSONObject.DeepCopyInto, mapToInterface, DeepCopyJSONValue_eq, hv, if_true,
        assertMap]

/-- C25 (amended) at a concrete value: a `JSON` and a `JSONObject` holding the
map `{"name": "up", "tags": ["a"], "n": 1}` with `n` an `int64`. -/
theorem DeepCopy_of_supported_witness :
    JSON.DeepCopy (some { Object := JSONValue.object exampleFields }) =
      some (some { Object := JSONValue.object exampleFields }) ∧
    JSONObject.DeepCopy (some { Object := some exampleFields }) =
      some (some { Object := some exampleFields }) :=
  ⟨DeepCopy_of_supported.2.2.1 { Object := JSONValue.object exampleFields } rfl,
   (DeepCopy_of_supported.2.2.2.2 exampleFields rfl).1⟩

/-! ## Generated deep copies -/

/-- Writing the last cell of a memory that just grew by one. -/
theorem set_concat_last {α : Type} (l : List α) (z v : α) :
    (l ++ [z]).set l.length v = l ++ [v] := by
  rw [List.set_append_right _ _ (Nat.le_refl _)]
  simp

/-- A cell keeps its content when the memory grows. -/
theorem getElem?_append_of_some {α : Type} (l t : List α) (a : Nat) (x : α)
    (h : l[a]? = some x) : (l ++ t)[a]? = some x := by
  obtain ⟨hlt, _⟩ := List.getElem?_eq_some_iff.mp h
  rw [List.getElem?_append_left hlt]
  exact h

/-- What a pointer points to stays what it is when the memory grows. -/
theorem deref_append {α : Type} (l t : List α) (p : Ptr) (x : Option α)
    (h : deref l p = some x) : deref (l ++ t) p = some x := by
  cases p with
  | none => exact h
  | some a =>
    simp only [deref] at h ⊢
    cases hl : l[a]? with
    | none => rw [hl] at h; cases h
    | some y =>
      rw [hl] at h
      rw [getElem?_append_of_some l t a y hl]
      exact h

/-- A pointer to a copy appended to the memory points to that copy. -/
theorem deref_new {α : Type} (l : List α) (x : α) :
    deref (l ++ [x]) (some l.length) = some (some x) := by
  simp [deref]

/-- Every memory extends itself. -/
theorem Heap.Extends.refl {χ σ : Type} (h : Heap χ σ) : h.Extends h :=
  ⟨List.prefix_refl _, List.prefix_refl _, List.prefix_refl _, List.prefix_refl _,
    List.prefix_refl _, List.prefix_refl _, List.prefix_refl _⟩

/-- The copy of a `CrossplaneAutoUpgradeSpec`: a new struct, at a new address,
with the content of the original, its pointer new; nothing that existed is
changed. -/
theorem CrossplaneAutoUpgradeSpec_DeepCopy_spec {χ σ : Type} (h : Heap χ σ) (a : Nat)
    (v : CrossplaneAutoUpgradeSpec) (c : AutoUpgradeContent χ)
    (hv : h.autoUpgrades[a]? = some v) (hc : h.autoUpgradeContent v = some c) :
    ∃ h1 v1, CrossplaneAutoUpgradeSpec.DeepCopy h (some a) =
        some (h1, some h.autoUpgrades.length) ∧
      h1.autoUpgrades[h.autoUpgrades.length]? = some v1 ∧
      h1.autoUpgradeContent v1 = some c ∧
      h.Extends h1 ∧
      v1.Channel.newSince h.channels.length := by
  have hread : (h.autoUpgrades ++ [({ Channel := none } : CrossplaneAutoUpgradeSpec)])[a]? =
      some v := getElem?_append_of_some _ _ _ _ hv
  obtain ⟨p⟩ := v
  cases p with
  | none =>
    refine ⟨{ h with autoUpgrades := h.autoUpgrades ++ [{ Channel := none }] },
      { Channel := none }, ?_, ?_, ?_, ?_, ?_⟩
    · simp [CrossplaneAutoUpgradeSpec.DeepCopy, CrossplaneAutoUpgradeSpec.DeepCopyInto, hread,
        set_concat_last]
    · simp
    · exact hc
    · exact ⟨List.prefix_refl _, List.prefix_refl _, List.prefix_refl _,
        List.prefix_append _ _, List.prefix_refl _, List.prefix_refl _, List.prefix_refl _⟩
    · intro b hb
      cases hb
  | some p =>
    simp only [Heap.autoUpgradeContent, deref] at hc
    cases hch : h.channels[p]? with
    | none => rw [hch] at hc; cases hc
    | some ch =>
      rw [hch] at hc
      simp only [Option.some.injEq] at hc
      refine ⟨{ h with
          channels := h.channels ++ [ch],
          autoUpgrades := h.autoUpgrades ++ [{ Channel := some h.channels.length }] },
        { Channel := some h.channels.length }, ?_, ?_, ?_, ?_, ?_⟩
      · simp [CrossplaneAutoUpgradeSpec.DeepCopy, CrossplaneAutoUpgradeSpec.DeepCopyInto,
          hread, set_concat_last, hch]
      · simp
      · simp only [Heap.autoUpgradeContent, deref_new]
        rw [← hc]
      · exact ⟨List.prefix_refl _, List.prefix_append _ _, List.prefix_refl _,
          List.prefix_append _ _, List.prefix_refl _, List.prefix_refl _, List.prefix_refl _⟩
      · intro b hb
        cases hb
        exact Nat.le_refl _

/-- The copy of a `ControlPlaneBackupConfig`: a new struct, at a new address,
whose slice is nil when the original's is nil and otherwise has the elements of
the original's, in order, in a new array; nothing that existed is changed. -/
theorem ControlPlaneBackupConfig_DeepCopy_spec {χ σ : Type} (h : Heap χ σ) (a : Nat)
    (v : ControlPlaneBackupConfig) (c : Option (List String))
    (hv : h.backupConfigs[a]? = some v)
    (hc : h.sliceContent v.ExcludedResources = some c) :
    ∃ h1 v1, ControlPlaneBackupConfig.DeepCopy h (some a) =
        some (h1, some h.backupConfigs.length) ∧
      h1.backupConfigs[h.backupConfigs.length]? = some v1 ∧
      h1.sliceContent v1.ExcludedResources = some c ∧
      h.Extends h1 ∧
      (∀ s, v1.ExcludedResources = some s → h.arrays.length ≤ s.array) := by
  have hread : (h.backupConfigs ++
      [({ ExcludedResources := none } : ControlPlaneBackupConfig)])[a]? = some v :=
    getElem?_append_of_some _ _ _ _ hv
  obtain ⟨sl⟩ := v
  cases sl with
  | none =>
    refine ⟨{ h with backupConfigs := h.backupConfigs ++ [{ ExcludedResources := none }] },
      { ExcludedResources := none }, ?_, ?_, ?_, ?_, ?_⟩
    · simp [ControlPlaneBackupConfig.DeepCopy, ControlPlaneBackupConfig.DeepCopyInto, hread,
        set_concat_last]
    · simp
    · exact hc
    · exact ⟨List.prefix_refl _, List.prefix_refl _, List.prefix_refl _, List.prefix_refl _,
        List.prefix_refl _, List.prefix_append _ _, List.prefix_refl _⟩
    · intro s hs
      cases hs
  | some s =>
    simp only [Heap.sliceContent] at hc
    cases harr : h.arrays[s.array]? with
    | none => rw [harr] at hc; cases hc
    | some arr =>
      rw [harr] at hc
      by_cases hb : s.off + s.len ≤ arr.length
      · simp only [if_pos hb, Option.some.injEq] at hc
        have hlen : ((arr.drop s.off).take s.len).length = s.len := by
          rw [List.length_take, List.length_drop]
          omega
        have hfill : ((arr.drop s.off).take s.len).take (List.replicate s.len "").length ++
            (List.replicate s.len "").drop ((arr.drop s.off).take s.len).length =
            (arr.drop s.off).take s.len := by
          rw [hlen, List.length_replicate, List.take_take, Nat.min_self]
          simp
        refine ⟨{ h with
            arrays := h.arrays ++ [(arr.drop s.off).take s.len],
            backupConfigs := h.backupConfigs ++
              [{ ExcludedResources := some { array := h.arrays.length, off := 0, len := s.len } }] },
          { ExcludedResources := some { array := h.arrays.length, off := 0, len := s.len } },
          ?_, ?_, ?_, ?_, ?_⟩
        · simp only [ControlPlaneBackupConfig.DeepCopy, ControlPlaneBackupConfig.DeepCopyInto,
            hread, List.length_append, List.length_singleton, Nat.lt_succ_self, if_true,
            set_concat_last, harr, hb, hfill]
        · simp
        · simp only [Heap.sliceContent, List.getElem?_concat_length, Nat.zero_add, hlen,
            Nat.le_refl, if_true, List.drop_zero]
          rw [← hc, List.take_of_length_le (Nat.le_of_eq hlen)]
        · exact ⟨List.prefix_refl _, List.prefix_refl _, List.prefix_refl _,
            List.prefix_refl _, List.prefix_refl _, List.prefix_append _ _,
            List.prefix_append _ _⟩
        · intro s1 hs1
          cases hs1
          exact Nat.le_refl _
      · simp [if_neg hb] at hc

/-- A pointer to the copy of what a pointer pointed to, in the memory that
holds the copy, points to the same content; nil stays nil. -/
theorem deref_copy {α : Type} (l : List α) (x : Option α) :
    deref (l ++ x.toList) (x.map (fun _ => l.length)) = some x := by
  cases x <;> simp [deref]

/-- What a valid pointer to a string, channel or state holds. -/
theorem getElem?_of_deref {α : Type} (l : List α) (a : Nat) (x : Option α)
    (h : deref l (some a) = some x) : ∃ y, l[a]? = some y ∧ x = some y := by
  simp only [deref] at h
  cases hl : l[a]? with
  | none => rw [hl] at h; cases h
  | some y =>
    rw [hl] at h
    simp only [Option.some.injEq] at h
    exact ⟨y, rfl, h.symm⟩

/-- The memory that `CrossplaneSpec.DeepCopy` leaves and the pointer it
returns, in terms of the content `c` of the struct copied: every variable that
a non-nil pointer of the original reaches is copied to a new variable, and the
new struct, at a new address, points to the copies. -/
theorem CrossplaneSpec_DeepCopy_eq {χ σ : Type} (h : Heap χ σ) (a : Nat)
    (v : CrossplaneSpec) (c : SpecContent χ σ)
    (hv : h.specs[a]? = some v) (hc : h.specContent v = some c) :
    CrossplaneSpec.DeepCopy h (some a) =
      some ({ strings := h.strings ++ c.Version.toList,
              channels := h.channels ++
                (match c.AutoUpgradeSpec with
                  | some w => w.Channel.toList
                  | none => []),
              states := h.states ++ c.State.toList,
              autoUpgrades := h.autoUpgrades ++
                (match c.AutoUpgradeSpec with
                  | some w => [{ Channel := w.Channel.map (fun _ => h.channels.length) }]
                  | none => []),
              specs := h.specs ++
                [{ Version := c.Version.map (fun _ => h.strings.length),
                   AutoUpgradeSpec := c.AutoUpgradeSpec.map (fun _ => h.autoUpgrades.length),
                   State := c.State.map (fun _ => h.states.length) }],
              backupConfigs := h.backupConfigs,
              arrays := h.arrays }, some h.specs.length) := by
  obtain ⟨ver, au, st⟩ := v
  have hread := getElem?_append_of_some h.specs
    [({ Version := none, AutoUpgradeSpec := none, State := none } : CrossplaneSpec)] a _ hv
  simp only [Heap.specContent] at hc
  cases hver : deref h.strings ver with
  | none => simp [hver] at hc
  | some cver =>
  cases hau : h.autoUpgradeAt au with
  | none => simp [hver, hau] at hc
  | some cau =>
  cases hst : deref h.states st with
  | none => simp [hver, hau, hst] at hc
  | some cst =>
  simp only [hver, hau, hst, Option.some.injEq] at hc
  subst hc
  -- the three pointers, one after the other
  have hV : (ver = none ∧ cver = none) ∨
      ∃ pv str, ver = some pv ∧ cver = some str ∧ h.strings[pv]? = some str := by
    cases ver with
    | none => simp only [deref, Option.some.injEq] at hver; exact Or.inl ⟨rfl, hver.symm⟩
    | some pv =>
      obtain ⟨y, hy, hx⟩ := getElem?_of_deref _ _ _ hver
      exact Or.inr ⟨pv, y, rfl, hx, hy⟩
  have hS : (st = none ∧ cst = none) ∨
      ∃ ps x, st = some ps ∧ cst = some x ∧ h.states[ps]? = some x := by
    cases st with
    | none => simp only [deref, Option.some.injEq] at hst; exact Or.inl ⟨rfl, hst.symm⟩
    | some ps =>
      obtain ⟨y, hy, hx⟩ := getElem?_of_deref _ _ _ hst
      exact Or.inr ⟨ps, y, rfl, hx, hy⟩
  have hA : (au = none ∧ cau = none) ∨
      (∃ pa, au = some pa ∧ cau = some { Channel := none } ∧
        h.autoUpgrades[pa]? = some { Channel := none }) ∨
      (∃ pa pc ch, au = some pa ∧ cau = some { Channel := some ch } ∧
        h.autoUpgrades[pa]? = some { Channel := some pc } ∧ h.channels[pc]? = some ch) := by
    cases au with
    | none =>
      simp only [Heap.autoUpgradeAt, Option.some.injEq] at hau
      exact Or.inl ⟨rfl, hau.symm⟩
    | some pa =>
      simp only [Heap.autoUpgradeAt] at hau
      cases hw : h.autoUpgrades[pa]? with
      | none => simp [hw] at hau
      | some w =>
        obtain ⟨pch⟩ := w
        cases pch with
        | none =>
          simp [hw, Heap.autoUpgradeContent, deref] at hau
          exact Or.inr (Or.inl ⟨pa, rfl, hau.symm, hw⟩)
        | some pc =>
          simp only [hw, Heap.autoUpgradeContent, deref] at hau
          cases hch : h.channels[pc]? with
          | none => simp [hch] at hau
          | some ch =>
            simp [hch] at hau
            exact Or.inr (Or.inr ⟨pa, pc, ch, rfl, hau.symm, hw, hch⟩)
  clear hver hst hau hv
  rcases hA with ⟨rfl, rfl⟩ | ⟨pa, rfl, rfl, hw⟩ | ⟨pa, pc, ch, rfl, rfl, hw, hch⟩
  · rcases hV with ⟨rfl, rfl⟩ | ⟨pv, str, rfl, rfl, hs⟩ <;>
    rcases hS with ⟨rfl, rfl⟩ | ⟨ps, x, rfl, rfl, hx⟩ <;>
    simp only [CrossplaneSpec.DeepCopy, CrossplaneSpec.DeepCopyInto,
      List.length_append, List.length_singleton, Nat.lt_succ_self, if_true, set_concat_last,
      List.getElem?_concat_length, List.length_set, Option.toList, Option.map,
      List.append_nil, *]
  · have hw2 := getElem?_append_of_some h.autoUpgrades
      [({ Channel := none } : CrossplaneAutoUpgradeSpec)] pa _ hw
    rcases hV with ⟨rfl, rfl⟩ | ⟨pv, str, rfl, rfl, hs⟩ <;>
    rcases hS with ⟨rfl, rfl⟩ | ⟨ps, x, rfl, rfl, hx⟩ <;>
    simp only [CrossplaneSpec.DeepCopy, CrossplaneSpec.DeepCopyInto,
      CrossplaneAutoUpgradeSpec.DeepCopyInto,
      List.length_append, List.length_singleton, Nat.lt_succ_self, if_true, set_concat_last,
      List.getElem?_concat_length, List.length_set, Option.toList, Option.map,
      List.append_nil, *]
  · have hw2 := getElem?_append_of_some h.autoUpgrades
      [({ Channel := none } : CrossplaneAutoUpgradeSpec)] pa _ hw
    rcases hV with ⟨rfl, rfl⟩ | ⟨pv, str, rfl, rfl, hs⟩ <;>
    rcases hS with ⟨rfl, rfl⟩ | ⟨ps, x, rfl, rfl, hx⟩ <;>
    simp only [CrossplaneSpec.DeepCopy, CrossplaneSpec.DeepCopyInto,
      CrossplaneAutoUpgradeSpec.DeepCopyInto,
      List.length_append, List.length_singleton, Nat.lt_succ_self, if_true, set_concat_last,
      List.getElem?_concat_length, List.length_set, Option.toList, Option.map,
      List.append_nil, *]

/-- The copy of a `CrossplaneSpec`: a new struct, at a new address, with the
content of the original, all its pointers new; nothing that existed is
changed. -/
theorem CrossplaneSpec_DeepCopy_spec {χ σ : Type} (h : Heap χ σ) (a : Nat)
    (v : CrossplaneSpec) (c : SpecContent χ σ)
    (hv : h.specs[a]? = some v) (hc : h.specContent v = some c) :
    ∃ h1 v1, CrossplaneSpec.DeepCopy h (some a) = some (h1, some h.specs.length) ∧
      h1.specs[h.specs.length]? = some v1 ∧
      h1.specContent v1 = some c ∧
      h.Extends h1 ∧
      v1.Version.newSince h.strings.length ∧
      v1.AutoUpgradeSpec.newSince h.autoUpgrades.length ∧
      v1.State.newSince h.states.length := by
  refine ⟨_, _, CrossplaneSpec_DeepCopy_eq h a v c hv hc, List.getElem?_concat_length _ _,
    ?_, ?_, ?_, ?_, ?_⟩
  · obtain ⟨cver, cau, cst⟩ := c
    simp only [Heap.specContent, deref_copy]
    cases cau with
    | none => simp [Heap.autoUpgradeAt]
    | some w =>
      obtain ⟨wch⟩ := w
      simp [Heap.autoUpgradeAt, Heap.autoUpgradeContent, deref_copy]
  · exact ⟨List.prefix_append _ _, List.prefix_append _ _, List.prefix_append _ _,
      List.prefix_append _ _, List.prefix_append _ _, List.prefix_refl _, List.prefix_refl _⟩
  · intro b hb
    cases hcv : c.Version with
    | none => simp [hcv] at hb
    | some x =>
      simp [hcv] at hb
      omega
  · intro b hb
    cases hcv : c.AutoUpgradeSpec with
    | none => simp [hcv] at hb
    | some x =>
      simp [hcv] at hb
      omega
  · intro b hb
    cases hcv : c.State with
    | none => simp [hcv] at hb
    | some x =>
      simp [hcv] at hb
      omega

/-- C26: for the generated types `CrossplaneAutoUpgradeSpec`, `CrossplaneSpec`
and `ControlPlaneBackupConfig`, `DeepCopy` of a nil receiver is nil and changes
nothing, and `DeepCopy` of a non-nil receiver returns a pointer to a new struct
with the content of the receiver: a nil pointer or slice stays nil, a non-nil
pointer points to a new variable that holds an equal value (for the nested
struct, a new struct with equal content), and a non-nil slice has a new array
with the same elements in the same order; every variable that existed before
the call is unchanged. -/
theorem DeepCopy_generated {χ σ : Type} (h : Heap χ σ) :
    (CrossplaneAutoUpgradeSpec.DeepCopy h none = some (h, none) ∧
      CrossplaneSpec.DeepCopy h none = some (h, none) ∧
      ControlPlaneBackupConfig.DeepCopy h none = some (h, none)) ∧
    (∀ a v c, h.autoUpgrades[a]? = some v → h.autoUpgradeContent v = some c →
      ∃ h1 v1, CrossplaneAutoUpgradeSpec.DeepCopy h (some a) =
          some (h1, some h.autoUpgrades.length) ∧
        h1.autoUpgrades[h.autoUpgrades.length]? = some v1 ∧
        h1.autoUpgradeContent v1 = some c ∧ h.Extends h1 ∧
        v1.Channel.newSince h.channels.length) ∧
    (∀ a v c, h.specs[a]? = some v → h.specContent v = some c →
      ∃ h1 v1, CrossplaneSpec.DeepCopy h (some a) = some (h1, some h.specs.length) ∧
        h1.specs[h.specs.length]? = some v1 ∧
        h1.specContent v1 = some c ∧ h.Extends h1 ∧
        v1.Version.newSince h.strings.length ∧
        v1.AutoUpgradeSpec.newSince h.autoUpgrades.length ∧
        v1.State.newSince h.states.length) ∧
    (∀ a v c, h.backupConfigs[a]? = some v → h.sliceContent v.ExcludedResources = some c →
      ∃ h1 v1, ControlPlaneBackupConfig.DeepCopy h (some a) =
          some (h1, some h.backupConfigs.length) ∧
        h1.backupConfigs[h.backupConfigs.length]? = some v1 ∧
        h1.sliceContent v1.ExcludedResources = some c ∧ h.Extends h1 ∧
        (∀ s, v1.ExcludedResources = some s → h.arrays.length ≤ s.array)) :=
  ⟨⟨rfl, rfl, rfl⟩,
   fun a v c hv hc => CrossplaneAutoUpgradeSpec_DeepCopy_spec h a v c hv hc,
   fun a v c hv hc => CrossplaneSpec_DeepCopy_spec h a v c hv hc,
   fun a v c hv hc => ControlPlaneBackupConfig_DeepCopy_spec h a v c hv hc⟩

/-- C26 at a concrete memory: the copy of the `CrossplaneSpec` at address 0 is
a new struct at address 1 whose three pointers are new, and the copy of the
backup configuration whose slice is `["b", "c"]` has that content. -/
theorem DeepCopy_generated_witness :
    (∃ h1 v1, CrossplaneSpec.DeepCopy exampleHeap (some 0) = some (h1, some 1) ∧
      h1.specs[1]? = some v1 ∧
      h1.specContent v1 =
        some { Version := some "1.14", AutoUpgradeSpec := some { Channel := some "Stable" },
               State := some "Running" }) ∧
    (∃ h1 v1, ControlPlaneBackupConfig.DeepCopy exampleHeap (some 0) = some (h1, some 2) ∧
      h1.backupConfigs[2]? = some v1 ∧
      h1.sliceContent v1.ExcludedResources = some (some ["b", "c"])) ∧
    Option.map (fun r => r.1.specs) (CrossplaneSpec.DeepCopy exampleHeap (some 0)) =
      some [{ Version := some 0, AutoUpgradeSpec := some 0, State := some 0 },
            { Version := some 1, AutoUpgradeSpec := some 1, State := some 1 }] :=
  have hs := (DeepCopy_generated exampleHeap).2.2.1 0
    { Version := some 0, AutoUpgradeSpec := some 0, State := some 0 }
    { Version := some "1.14", AutoUpgradeSpec := some { Channel := some "Stable" },
      State := some "Running" } rfl rfl
  have hb := (DeepCopy_generated exampleHeap).2.2.2 0
    { ExcludedResources := some { array := 0, off := 1, len := 2 } }
    (some ["b", "c"]) rfl rfl
  ⟨⟨hs.choose, hs.choose_spec.choose, hs.choose_spec.choose_spec.1,
     hs.choose_spec.choose_spec.2.1, hs.choose_spec.choose_spec.2.2.1⟩,
   ⟨hb.choose, hb.choose_spec.choose, hb.choose_spec.choose_spec.1,
     hb.choose_spec.choose_spec.2.1, hb.choose_spec.choose_spec.2.2.1⟩,
   by decide⟩

end Up
